import Mathlib

set_option maxHeartbeats 1000000

/-!
Verification of the MemGPT message-translation core
(`memgpt/schemas/message.py`): the canonical `Message` record, its
validation, the legacy ingest adapter (`dict_to_message`) and the four
provider encoders (`to_openai_dict`, `to_anthropic_dict`,
`to_google_ai_dict`, `to_cohere_dict`).

Tool-call argument payloads are stored as JSON-encoded strings and are
parsed/re-serialized by the encoders via Python's `json.loads` /
`json.dumps`.  We model that JSON layer first: values are a mutual
inductive (so every function on them is structurally recursive, hence
kernel-computable), the serializer emits canonical JSON (no optional
whitespace; the claims under verification never inspect the raw
separator characters), and the parser runs on a structurally decreasing
fuel counter.  `json_loads_dumps` proves the round-trip needed to reason
about re-serialized tool-call arguments.
-/

mutual

/-- A JSON value, as handled by Python's `json` module.  Arrays and
objects use bespoke mutual list types so that recursion over a value is
structural.  Numbers are modelled as integers (the message translator
never manipulates fractional argument values; a float mantissa would be
orthogonal to every claim checked here). -/
inductive Json where
  | null : Json
  | bool (b : Bool) : Json
  | num (n : Int) : Json
  | str (s : String) : Json
  | arr (elems : JsonArr) : Json
  | obj (fields : JsonObj) : Json

/-- A list of JSON values (array elements). -/
inductive JsonArr where
  | nil : JsonArr
  | cons (hd : Json) (tl : JsonArr) : JsonArr

/-- An ordered association list of JSON object members, mirroring the
insertion-ordered dicts produced by `json.loads` in Python 3.7+. -/
inductive JsonObj where
  | nil : JsonObj
  | cons (key : String) (val : Json) (tl : JsonObj) : JsonObj

end

/-- Membership/lookup on a JSON object, as Python's `d[k]` /  `k in d`
(first binding wins; `setKey` below never creates duplicates). -/
def JsonObj.lookup : JsonObj → String → Option Json
  | .nil, _ => none
  | .cons k v tl, key => if k = key then some v else JsonObj.lookup tl key

/-- Python's `k in d` membership test on a dict. -/
def JsonObj.hasKey (o : JsonObj) (key : String) : Bool :=
  (o.lookup key).isSome

/-- Python's `d[k] = v` on an insertion-ordered dict: replace in place if
the key is bound, otherwise append at the end. -/
def JsonObj.setKey : JsonObj → String → Json → JsonObj
  | .nil, key, v => .cons key v .nil
  | .cons k v0 tl, key, v =>
    if k = key then .cons k v tl else .cons k v0 (JsonObj.setKey tl key v)

/-- Serialization of one character inside a JSON string literal: quote
and backslash are escaped, everything else is passed through. -/
def escChar (c : Char) : List Char :=
  if c = '"' ∨ c = '\\' then ['\\', c] else [c]

/-- Escape every character of a string body. -/
def escapeChars : List Char → List Char
  | [] => []
  | c :: cs => escChar c ++ escapeChars cs

/-- Serialize a string, quotes included. -/
def dumpStringChars (s : String) : List Char :=
  '"' :: (escapeChars s.data ++ ['"'])

/-- The decimal digit character for `d < 10`. -/
def digitChar (d : Nat) : Char := Char.ofNat (48 + d)

/-- Decimal digits of a natural number, most significant first; the
first argument is structural fuel (any bound above the number works). -/
def natDigitsAux : Nat → Nat → List Char
  | 0, _ => []
  | fuel + 1, n =>
    if n < 10 then [digitChar n]
    else natDigitsAux fuel (n / 10) ++ [digitChar (n % 10)]

/-- Decimal digits of a natural number. -/
def natChars (n : Nat) : List Char := natDigitsAux (n + 1) n

/-- Decimal rendering of an integer. -/
def intChars (n : Int) : List Char :=
  if n < 0 then '-' :: natChars n.natAbs else natChars n.toNat

/-- The characters of the `null` keyword. -/
def nullChars : List Char := ['n', 'u', 'l', 'l']

/-- The characters of the `true` keyword. -/
def trueChars : List Char := ['t', 'r', 'u', 'e']

/-- The characters of the `false` keyword. -/
def falseChars : List Char := ['f', 'a', 'l', 's', 'e']

mutual

/-- Serialize a JSON value to characters (canonical form: no optional
whitespace). -/
def Json.dump : Json → List Char
  | .null => nullChars
  | .bool true => trueChars
  | .bool false => falseChars
  | .num n => intChars n
  | .str s => dumpStringChars s
  | .arr es => '[' :: (JsonArr.dump es ++ [']'])
  | .obj fs => '\x7b' :: (JsonObj.dump fs ++ ['\x7d'])

/-- Serialize array elements, comma separated. -/
def JsonArr.dump : JsonArr → List Char
  | .nil => []
  | .cons j .nil => Json.dump j
  | .cons j (.cons j2 tl) => Json.dump j ++ (',' :: JsonArr.dump (.cons j2 tl))

/-- Serialize object members, comma separated. -/
def JsonObj.dump : JsonObj → List Char
  | .nil => []
  | .cons k v .nil => dumpStringChars k ++ (':' :: Json.dump v)
  | .cons k v (.cons k2 v2 tl) =>
    dumpStringChars k ++ (':' :: (Json.dump v ++ (',' :: JsonObj.dump (.cons k2 v2 tl))))

end

/-- Model of Python's `json.dumps` on a structured value. -/
def json_dumps (j : Json) : String := String.mk (Json.dump j)

mutual

/-- Parse the body of a string literal (after the opening quote),
returning the unescaped characters and the input after the closing
quote. -/
def parseStringBody : List Char → Option (List Char × List Char)
  | [] => none
  | c :: rest =>
    if c = '"' then some ([], rest)
    else if c = '\\' then parseEscapeBody rest
    else (parseStringBody rest).map (fun p => (c :: p.1, p.2))

/-- Parse the character following a backslash inside a string literal. -/
def parseEscapeBody : List Char → Option (List Char × List Char)
  | [] => none
  | c2 :: rest2 =>
    if c2 = '"' ∨ c2 = '\\' then
      (parseStringBody rest2).map (fun p => (c2 :: p.1, p.2))
    else none

end

/-- Numeric value of a decimal digit character. -/
def digitVal (c : Char) : Nat := c.toNat - 48

/-- Consume a maximal run of decimal digits, accumulating their value. -/
def munchDigits : Nat → List Char → Nat × List Char
  | acc, [] => (acc, [])
  | acc, c :: rest =>
    if c.isDigit then munchDigits (acc * 10 + digitVal c) rest
    else (acc, c :: rest)

/-- Parse a natural number literal (at least one digit required). -/
def parseNatChars : List Char → Option (Nat × List Char)
  | [] => none
  | c :: rest => if c.isDigit then some (munchDigits 0 (c :: rest)) else none

/-- Require the first characters of the input to match the given word,
returning the remainder. -/
def stripChars : List Char → List Char → Option (List Char)
  | [], rest => some rest
  | _ :: _, [] => none
  | p :: ps, c :: cs => if c = p then stripChars ps cs else none

mutual

/-- Parse a single JSON value; the first argument is fuel that bounds
the nesting depth of the value (see `json_loads` for the bound used). -/
def parseVal : Nat → List Char → Option (Json × List Char)
  | 0, _ => none
  | _ + 1, [] => none
  | fuel + 1, c :: rest =>
    if c = 'n' then (stripChars ['u', 'l', 'l'] rest).map (fun r => (Json.null, r))
    else if c = 't' then (stripChars ['r', 'u', 'e'] rest).map (fun r => (Json.bool true, r))
    else if c = 'f' then (stripChars ['a', 'l', 's', 'e'] rest).map (fun r => (Json.bool false, r))
    else if c = '"' then
      (parseStringBody rest).map (fun p => (Json.str (String.mk p.1), p.2))
    else if c = '-' then
      (parseNatChars rest).map (fun p => (Json.num (-(p.1 : Int)), p.2))
    else if c.isDigit then
      (parseNatChars (c :: rest)).map (fun p => (Json.num (p.1 : Int), p.2))
    else if c = '[' then parseArrBody fuel rest
    else if c = '\x7b' then parseObjBody fuel rest
    else none

/-- Parse what follows the opening bracket of an array. -/
def parseArrBody : Nat → List Char → Option (Json × List Char)
  | 0, _ => none
  | _ + 1, [] => none
  | fuel + 1, c2 :: rest2 =>
    if c2 = ']' then some (Json.arr .nil, rest2)
    else (parseElems fuel (c2 :: rest2)).map (fun p => (Json.arr p.1, p.2))

/-- Parse what follows the opening brace of an object. -/
def parseObjBody : Nat → List Char → Option (Json × List Char)
  | 0, _ => none
  | _ + 1, [] => none
  | fuel + 1, c2 :: rest2 =>
    if c2 = '\x7d' then some (Json.obj .nil, rest2)
    else (parseFields fuel (c2 :: rest2)).map (fun p => (Json.obj p.1, p.2))

/-- Parse one or more comma-separated array elements up to the closing
bracket (which is consumed). -/
def parseElems : Nat → List Char → Option (JsonArr × List Char)
  | 0, _ => none
  | fuel + 1, inp =>
    (parseVal fuel inp).bind (fun p =>
      match p.2 with
      | [] => none
      | c :: rest =>
        if c = ',' then
          (parseElems fuel rest).map (fun q => (JsonArr.cons p.1 q.1, q.2))
        else if c = ']' then some (JsonArr.cons p.1 .nil, rest)
        else none)

/-- Parse one or more comma-separated object members up to the closing
brace (which is consumed). -/
def parseFields : Nat → List Char → Option (JsonObj × List Char)
  | 0, _ => none
  | fuel + 1, inp =>
    match inp with
    | [] => none
    | c :: rest =>
      if c = '"' then
        (parseStringBody rest).bind (fun kp =>
          match kp.2 with
          | [] => none
          | c2 :: rest2 =>
            if c2 = ':' then
              (parseVal fuel rest2).bind (fun vp =>
                match vp.2 with
                | [] => none
                | c3 :: rest3 =>
                  if c3 = ',' then
                    (parseFields fuel rest3).map
                      (fun q => (JsonObj.cons (String.mk kp.1) vp.1 q.1, q.2))
                  else if c3 = '\x7d' then
                    some (JsonObj.cons (String.mk kp.1) vp.1 .nil, rest3)
                  else none)
            else none)
      else none

end

/-- Model of Python's `json.loads`: parse a complete JSON document; any
leftover input is a failure (Python raises `JSONDecodeError`, which we
render as `none` here and as an error value at the call sites).  The
fuel `3 * length + 1` dominates the depth of any value the input can
encode, since each descent in the parser consumes input. -/
def json_loads (s : String) : Option Json :=
  match parseVal (3 * s.length + 1) s.data with
  | some (j, []) => some j
  | _ => none

/-- Rebuilding a string from its own characters is the identity. -/
theorem strMk_data (s : String) : String.mk s.data = s := by
  cases s
  rfl

/-- Matching a word against itself followed by anything succeeds. -/
theorem stripChars_append (p rest : List Char) :
    stripChars p (p ++ rest) = some rest := by
  induction p with
  | nil => rfl
  | cons c cs ih => simp [stripChars, ih]

/-- Parsing an escaped string body recovers the original characters. -/
theorem parseStringBody_escape (l rest : List Char) :
    parseStringBody (escapeChars l ++ ('"' :: rest)) = some (l, rest) := by
  induction l with
  | nil => simp [escapeChars, parseStringBody]
  | cons c cs ih =>
    by_cases hc : c = '"' ∨ c = '\\'
    · simp [escapeChars, escChar, hc, parseStringBody, parseEscapeBody, ih]
    · push_neg at hc
      simp [escapeChars, escChar, hc.1, hc.2, parseStringBody, ih]

/-- The digit characters are digits and decode to their value. -/
theorem digitVal_digitChar (d : Nat) (h : d < 10) :
    digitVal (digitChar d) = d := by
  interval_cases d <;> decide

/-- Digit characters satisfy `Char.isDigit`. -/
theorem isDigit_digitChar (d : Nat) (h : d < 10) :
    (digitChar d).isDigit = true := by
  interval_cases d <;> decide

/-- Digit characters are distinct from every structural character the
JSON parser dispatches on. -/
theorem digitChar_ne (d : Nat) (h : d < 10) :
    digitChar d ≠ 'n' ∧ digitChar d ≠ 't' ∧ digitChar d ≠ 'f' ∧
    digitChar d ≠ '"' ∧ digitChar d ≠ '-' ∧ digitChar d ≠ '[' ∧
    digitChar d ≠ '\x7b' ∧ digitChar d ≠ ']' ∧
    digitChar d ≠ '\x7d' ∧ digitChar d ≠ ',' ∧ digitChar d ≠ ':' := by
  interval_cases d <;> decide

/-- The decimal rendering of a natural number is a nonempty list of
digit characters. -/
theorem natDigitsAux_spec :
    ∀ (f n : Nat), n < f → ∃ d tlc, natDigitsAux f n = digitChar d :: tlc ∧
      d < 10 ∧ ∀ c ∈ tlc, c.isDigit = true := by
  intro f
  induction f with
  | zero => omega
  | succ f ih =>
    intro n hn
    by_cases h10 : n < 10
    · exact ⟨n, [], by simp [natDigitsAux, h10], h10, by simp⟩
    · have hdiv : n / 10 < f := by
        have h1 : n / 10 < n := Nat.div_lt_self (by omega) (by omega)
        omega
      obtain ⟨d, tlc, heq, hd, htl⟩ := ih (n / 10) hdiv
      refine ⟨d, tlc ++ [digitChar (n % 10)], ?_, hd, ?_⟩
      · simp [natDigitsAux, h10, heq]
      · intro c hc
        rcases List.mem_append.mp hc with h | h
        · exact htl c h
        · simp at h
          subst h
          exact isDigit_digitChar _ (Nat.mod_lt _ (by omega))

/-- One step of decimal accumulation. -/
def digitFold (acc : Nat) (c : Char) : Nat := acc * 10 + digitVal c

/-- The head of the input is not a digit (true of the empty input);
under this condition the digit muncher stops. -/
def headNotDigit : List Char → Prop
  | [] => True
  | c :: _ => c.isDigit = false

/-- Munching a run of digits accumulates them with `digitFold`. -/
theorem munchDigits_digits_append (l : List Char) (hl : ∀ c ∈ l, c.isDigit = true) :
    ∀ (acc : Nat) (rest : List Char),
      munchDigits acc (l ++ rest) = munchDigits (l.foldl digitFold acc) rest := by
  induction l with
  | nil => simp
  | cons c cs ih =>
    intro acc rest
    have hc := hl c (by simp)
    simp [munchDigits, hc, digitFold]
    exact ih (fun c hc => hl c (by simp [hc])) _ rest

/-- The digit muncher stops at a non-digit (or the end of input). -/
theorem munchDigits_stop (acc : Nat) (rest : List Char) (h : headNotDigit rest) :
    munchDigits acc rest = (acc, rest) := by
  cases rest with
  | nil => rfl
  | cons c cs =>
    have hc : c.isDigit = false := h
    simp [munchDigits, hc]

/-- Folding the rendered digits of `n` over `digitFold` recovers `n`,
shifted past the accumulator. -/
theorem foldl_natDigitsAux :
    ∀ (f n : Nat), n < f → ∀ acc,
      (natDigitsAux f n).foldl digitFold acc
        = acc * 10 ^ (natDigitsAux f n).length + n := by
  intro f
  induction f with
  | zero => omega
  | succ f ih =>
    intro n hn acc
    by_cases h10 : n < 10
    · simp [natDigitsAux, h10, digitFold, digitVal_digitChar n h10]
    · have hdiv : n / 10 < f := by
        have h1 : n / 10 < n := Nat.div_lt_self (by omega) (by omega)
        omega
      have hmod := Nat.div_add_mod n 10
      simp only [natDigitsAux, h10, if_false, List.foldl_append, List.foldl_cons,
        List.foldl_nil, List.length_append, List.length_cons, List.length_nil]
      rw [ih (n / 10) hdiv acc]
      simp only [digitFold, digitVal_digitChar _ (Nat.mod_lt _ (by omega))]
      have hring : (acc * 10 ^ (natDigitsAux f (n / 10)).length + n / 10) * 10 + n % 10
          = acc * (10 ^ (natDigitsAux f (n / 10)).length * 10) + (10 * (n / 10) + n % 10) := by
        ring
      rw [hring, hmod, ← pow_succ]

/-- Parsing the decimal rendering of `n` returns `n` and stops exactly
at the terminator. -/
theorem parseNatChars_natChars (n : Nat) (rest : List Char) (h : headNotDigit rest) :
    parseNatChars (natChars n ++ rest) = some (n, rest) := by
  obtain ⟨d, tlc, heq, hd, htl⟩ := natDigitsAux_spec (n + 1) n (by omega)
  have hall : ∀ c ∈ natDigitsAux (n + 1) n, c.isDigit = true := by
    rw [heq]
    intro c hc
    rcases List.mem_cons.mp hc with h1 | h1
    · subst h1; exact isDigit_digitChar _ hd
    · exact htl c h1
  have hmun : munchDigits 0 (natDigitsAux (n + 1) n ++ rest)
      = ((natDigitsAux (n + 1) n).foldl digitFold 0, rest) := by
    rw [munchDigits_digits_append _ hall 0 rest, munchDigits_stop _ _ h]
  rw [foldl_natDigitsAux (n + 1) n (by omega) 0] at hmun
  simp only [Nat.zero_mul, Nat.zero_add] at hmun
  unfold natChars
  rw [heq] at hmun ⊢
  simp only [List.cons_append] at hmun
  simp only [List.cons_append, parseNatChars, isDigit_digitChar _ hd, if_true]
  rw [hmun]

mutual

/-- Fuel sufficient for `parseVal` to parse this value's serialization. -/
def Json.fuelSize : Json → Nat
  | .arr es => JsonArr.fuelSize es + 2
  | .obj fs => JsonObj.fuelSize fs + 2
  | _ => 1

/-- Fuel sufficient for `parseElems` on this (nonempty) element list. -/
def JsonArr.fuelSize : JsonArr → Nat
  | .nil => 0
  | .cons j tl => Json.fuelSize j + JsonArr.fuelSize tl + 1

/-- Fuel sufficient for `parseFields` on this (nonempty) member list. -/
def JsonObj.fuelSize : JsonObj → Nat
  | .nil => 0
  | .cons _ v tl => Json.fuelSize v + JsonObj.fuelSize tl + 1

end

/-- Every value needs at least one unit of fuel. -/
theorem fuelSize_pos (j : Json) : 1 ≤ Json.fuelSize j := by
  cases j <;> simp [Json.fuelSize]

/-- The serialization of a cons cell starts with the head value's
serialization. -/
theorem arrDump_cons_eq (j : Json) (tl : JsonArr) :
    ∃ D, JsonArr.dump (.cons j tl) = Json.dump j ++ D := by
  cases tl with
  | nil => exact ⟨[], by simp [JsonArr.dump]⟩
  | cons j2 tl2 => exact ⟨',' :: JsonArr.dump (.cons j2 tl2), rfl⟩

/-- The serialization of an object cons cell starts with the serialized
key. -/
theorem objDump_cons_eq (k : String) (v : Json) (tl : JsonObj) :
    ∃ R, JsonObj.dump (.cons k v tl) = dumpStringChars k ++ R := by
  cases tl with
  | nil => exact ⟨':' :: Json.dump v, rfl⟩
  | cons k2 v2 tl2 =>
    exact ⟨':' :: (Json.dump v ++ (',' :: JsonObj.dump (.cons k2 v2 tl2))), rfl⟩

/-- A serialized value never starts with a closing bracket or brace. -/
theorem dump_head_spec (j : Json) :
    ∃ c tlc, Json.dump j = c :: tlc ∧ c ≠ ']' ∧ c ≠ '\x7d' := by
  cases j with
  | null => exact ⟨'n', _, rfl, by decide, by decide⟩
  | bool b =>
    cases b
    · exact ⟨'f', _, rfl, by decide, by decide⟩
    · exact ⟨'t', _, rfl, by decide, by decide⟩
  | num n =>
    by_cases hn : n < 0
    · refine ⟨'-', natChars n.natAbs, ?_, by decide, by decide⟩
      simp [Json.dump, intChars, hn]
    · obtain ⟨d, tlc, heq, hd, -⟩ := natDigitsAux_spec (n.toNat + 1) n.toNat (by omega)
      obtain ⟨-, -, -, -, -, -, -, h8, h9, -, -⟩ := digitChar_ne d hd
      refine ⟨digitChar d, tlc, ?_, h8, h9⟩
      simp [Json.dump, intChars, hn, natChars, heq]
  | str s => exact ⟨'"', _, rfl, by decide, by decide⟩
  | arr es => exact ⟨'[', _, rfl, by decide, by decide⟩
  | obj fs => exact ⟨'\x7b', _, rfl, by decide, by decide⟩

/-- A closing bracket is not a digit. -/
theorem headNotDigit_rbracket (l : List Char) : headNotDigit (']' :: l) := by
  show (']').isDigit = false
  decide

/-- A closing brace is not a digit. -/
theorem headNotDigit_rbrace (l : List Char) : headNotDigit ('\x7d' :: l) := by
  show ('\x7d').isDigit = false
  decide

/-- A comma is not a digit. -/
theorem headNotDigit_comma (l : List Char) : headNotDigit (',' :: l) := by
  show (',').isDigit = false
  decide

/-- The empty input satisfies `headNotDigit`. -/
theorem headNotDigit_nil : headNotDigit [] := trivial

mutual

/-- Parsing the serialization of a value (with enough fuel and a
non-digit terminator) recovers the value and the terminator. -/
theorem rt_val (j : Json) (fuel : Nat) (hf : Json.fuelSize j ≤ fuel)
    (rest : List Char) (hr : headNotDigit rest) :
    parseVal fuel (Json.dump j ++ rest) = some (j, rest) := by
  obtain ⟨f, rfl⟩ : ∃ f, fuel = f + 1 := ⟨fuel - 1, by have := fuelSize_pos j; omega⟩
  cases j with
  | null => simp [Json.dump, nullChars, parseVal, stripChars]
  | bool b => cases b <;> simp [Json.dump, trueChars, falseChars, parseVal, stripChars]
  | str s =>
    have h := parseStringBody_escape s.data rest
    simp [Json.dump, dumpStringChars, parseVal, h, strMk_data]
  | num n =>
    by_cases hn : n < 0
    · have h := parseNatChars_natChars n.natAbs rest hr
      have hdump : Json.dump (Json.num n) = '-' :: natChars n.natAbs := by
        simp [Json.dump, intChars, hn]
      rw [hdump]
      simp only [List.cons_append]
      simp [parseVal, h]
      rw [abs_of_neg hn, neg_neg]
    · obtain ⟨d, tlc, heq, hd, htl⟩ := natDigitsAux_spec (n.toNat + 1) n.toNat (by omega)
      obtain ⟨h1, h2, h3, h4, h5, h6, h7, h8, h9, h10, h11⟩ := digitChar_ne d hd
      have hdg := isDigit_digitChar d hd
      have hdump : Json.dump (Json.num n) = digitChar d :: tlc := by
        simp [Json.dump, intChars, hn, natChars, heq]
      have hpn := parseNatChars_natChars n.toNat rest hr
      have hpn2 : parseNatChars (digitChar d :: (tlc ++ rest)) = some (n.toNat, rest) := by
        have hx : natChars n.toNat ++ rest = digitChar d :: (tlc ++ rest) := by
          simp [natChars, heq]
        rw [← hx]
        exact hpn
      rw [hdump]
      simp only [List.cons_append]
      simp [parseVal, h1, h2, h3, h4, h5, hdg, hpn2]
      omega
  | arr es =>
    cases es with
    | nil =>
      obtain ⟨f2, rfl⟩ : ∃ f2, f = f2 + 1 :=
        ⟨f - 1, by simp [Json.fuelSize, JsonArr.fuelSize] at hf; omega⟩
      simp [Json.dump, JsonArr.dump, parseVal, parseArrBody]
    | cons j1 tl1 =>
      obtain ⟨f2, rfl⟩ : ∃ f2, f = f2 + 1 :=
        ⟨f - 1, by
          simp [Json.fuelSize, JsonArr.fuelSize] at hf
          have := fuelSize_pos j1
          omega⟩
      have hsz : JsonArr.fuelSize (JsonArr.cons j1 tl1) ≤ f2 := by
        simp only [Json.fuelSize] at hf
        omega
      obtain ⟨c, tlc, hdump, hc1, hc2⟩ := dump_head_spec j1
      obtain ⟨D, hD⟩ := arrDump_cons_eq j1 tl1
      have harr := rt_arr j1 tl1 f2 hsz rest
      have hhead : JsonArr.dump (JsonArr.cons j1 tl1) ++ (']' :: rest)
          = c :: (tlc ++ (D ++ (']' :: rest))) := by
        rw [hD, hdump]
        simp [List.append_assoc]
      have hin : Json.dump (Json.arr (JsonArr.cons j1 tl1)) ++ rest
          = '[' :: (JsonArr.dump (JsonArr.cons j1 tl1) ++ (']' :: rest)) := by
        simp [Json.dump, List.append_assoc]
      have hbody : parseArrBody (f2 + 1) (JsonArr.dump (JsonArr.cons j1 tl1) ++ (']' :: rest))
          = some (Json.arr (JsonArr.cons j1 tl1), rest) := by
        rw [hhead]
        simp only [parseArrBody]
        rw [if_neg hc1, ← hhead, harr]
        rfl
      rw [hin]
      simp [parseVal, hbody]
  | obj fs =>
    cases fs with
    | nil =>
      obtain ⟨f2, rfl⟩ : ∃ f2, f = f2 + 1 :=
        ⟨f - 1, by simp [Json.fuelSize, JsonObj.fuelSize] at hf; omega⟩
      simp [Json.dump, JsonObj.dump, parseVal, parseObjBody]
    | cons k v tl =>
      obtain ⟨f2, rfl⟩ : ∃ f2, f = f2 + 1 :=
        ⟨f - 1, by
          simp [Json.fuelSize, JsonObj.fuelSize] at hf
          have := fuelSize_pos v
          omega⟩
      have hsz : JsonObj.fuelSize (JsonObj.cons k v tl) ≤ f2 := by
        simp only [Json.fuelSize] at hf
        omega
      obtain ⟨R, hR⟩ := objDump_cons_eq k v tl
      have hobj := rt_obj k v tl f2 hsz rest
      have hhead : JsonObj.dump (JsonObj.cons k v tl) ++ ('\x7d' :: rest)
          = '"' :: (escapeChars k.data ++ (['"'] ++ (R ++ ('\x7d' :: rest)))) := by
        rw [hR]
        simp [dumpStringChars, List.append_assoc]
      have hin : Json.dump (Json.obj (JsonObj.cons k v tl)) ++ rest
          = '\x7b' :: (JsonObj.dump (JsonObj.cons k v tl) ++ ('\x7d' :: rest)) := by
        simp [Json.dump, List.append_assoc]
      have hbody : parseObjBody (f2 + 1) (JsonObj.dump (JsonObj.cons k v tl) ++ ('\x7d' :: rest))
          = some (Json.obj (JsonObj.cons k v tl), rest) := by
        rw [hhead]
        simp only [parseObjBody]
        rw [if_neg (by decide : ¬ (('"' : Char) = '\x7d')), ← hhead, hobj]
        rfl
      rw [hin]
      simp [parseVal, hbody]
termination_by sizeOf j

/-- Parsing the serialization of a nonempty element list followed by the
closing bracket recovers the list. -/
theorem rt_arr (j : Json) (tl : JsonArr) (fuel : Nat)
    (h : JsonArr.fuelSize (JsonArr.cons j tl) ≤ fuel) (rest : List Char) :
    parseElems fuel (JsonArr.dump (JsonArr.cons j tl) ++ (']' :: rest))
      = some (JsonArr.cons j tl, rest) := by
  obtain ⟨f, rfl⟩ : ∃ f, fuel = f + 1 :=
    ⟨fuel - 1, by simp [JsonArr.fuelSize] at h; omega⟩
  cases tl with
  | nil =>
    have hv := rt_val j f (by simp [JsonArr.fuelSize] at h; omega)
      (']' :: rest) (headNotDigit_rbracket rest)
    simp [JsonArr.dump, parseElems, hv]
  | cons j2 tl2 =>
    have hfj : Json.fuelSize j ≤ f := by
      simp only [JsonArr.fuelSize] at h
      omega
    have hftl : JsonArr.fuelSize (JsonArr.cons j2 tl2) ≤ f := by
      simp only [JsonArr.fuelSize] at h ⊢
      omega
    have hv := rt_val j f hfj
      (',' :: (JsonArr.dump (JsonArr.cons j2 tl2) ++ (']' :: rest))) (headNotDigit_comma _)
    have ha := rt_arr j2 tl2 f hftl rest
    have hin : JsonArr.dump (JsonArr.cons j (JsonArr.cons j2 tl2)) ++ (']' :: rest)
        = Json.dump j ++ (',' :: (JsonArr.dump (JsonArr.cons j2 tl2) ++ (']' :: rest))) := by
      simp [JsonArr.dump, List.append_assoc]
    rw [hin]
    simp [parseElems, hv, ha]
termination_by sizeOf (JsonArr.cons j tl)

/-- Parsing the serialization of a nonempty member list followed by the
closing brace recovers the members. -/
theorem rt_obj (k : String) (v : Json) (tl : JsonObj) (fuel : Nat)
    (h : JsonObj.fuelSize (JsonObj.cons k v tl) ≤ fuel) (rest : List Char) :
    parseFields fuel (JsonObj.dump (JsonObj.cons k v tl) ++ ('\x7d' :: rest))
      = some (JsonObj.cons k v tl, rest) := by
  obtain ⟨f, rfl⟩ : ∃ f, fuel = f + 1 :=
    ⟨fuel - 1, by simp [JsonObj.fuelSize] at h; omega⟩
  cases tl with
  | nil =>
    have hfv : Json.fuelSize v ≤ f := by
      simp only [JsonObj.fuelSize] at h
      omega
    have hv := rt_val v f hfv ('\x7d' :: rest) (headNotDigit_rbrace rest)
    have hk := parseStringBody_escape k.data (':' :: (Json.dump v ++ ('\x7d' :: rest)))
    have hin : JsonObj.dump (JsonObj.cons k v .nil) ++ ('\x7d' :: rest)
        = '"' :: (escapeChars k.data ++ ('"' :: (':' :: (Json.dump v ++ ('\x7d' :: rest))))) := by
      simp [JsonObj.dump, dumpStringChars, List.append_assoc]
    rw [hin]
    simp [parseFields, hk, hv, strMk_data]
  | cons k2 v2 tl2 =>
    have hfv : Json.fuelSize v ≤ f := by
      simp only [JsonObj.fuelSize] at h
      omega
    have hftl : JsonObj.fuelSize (JsonObj.cons k2 v2 tl2) ≤ f := by
      simp only [JsonObj.fuelSize] at h ⊢
      omega
    have ho := rt_obj k2 v2 tl2 f hftl rest
    have hv := rt_val v f hfv
      (',' :: (JsonObj.dump (JsonObj.cons k2 v2 tl2) ++ ('\x7d' :: rest)))
      (headNotDigit_comma _)
    have hk := parseStringBody_escape k.data
      (':' :: (Json.dump v ++ (',' :: (JsonObj.dump (JsonObj.cons k2 v2 tl2) ++ ('\x7d' :: rest)))))
    have hin : JsonObj.dump (JsonObj.cons k v (JsonObj.cons k2 v2 tl2)) ++ ('\x7d' :: rest)
        = '"' :: (escapeChars k.data ++ ('"' :: (':' :: (Json.dump v ++
            (',' :: (JsonObj.dump (JsonObj.cons k2 v2 tl2) ++ ('\x7d' :: rest))))))) := by
      simp [JsonObj.dump, dumpStringChars, List.append_assoc]
    rw [hin]
    simp [parseFields, hk, hv, ho, strMk_data]
termination_by sizeOf (JsonObj.cons k v tl)

end

mutual

/-- The fuel needed for a value is dominated by its serialized length. -/
theorem fuelSize_le_val (j : Json) : Json.fuelSize j ≤ 3 * (Json.dump j).length := by
  cases j with
  | null => simp [Json.fuelSize, Json.dump, nullChars]
  | bool b => cases b <;> simp [Json.fuelSize, Json.dump, trueChars, falseChars]
  | num n =>
    have hlen : 1 ≤ (Json.dump (Json.num n)).length := by
      by_cases hn : n < 0
      · simp [Json.dump, intChars, hn]
      · obtain ⟨d, tlc, heq, -, -⟩ := natDigitsAux_spec (n.toNat + 1) n.toNat (by omega)
        simp [Json.dump, intChars, hn, natChars, heq]
    simp only [Json.fuelSize]
    omega
  | str s =>
    simp only [Json.fuelSize, Json.dump, dumpStringChars, List.length_cons, List.length_append]
    omega
  | arr es =>
    have h := fuelSize_le_arr es
    simp only [Json.fuelSize, Json.dump, List.length_cons, List.length_append,
      List.length_singleton]
    omega
  | obj fs =>
    have h := fuelSize_le_obj fs
    simp only [Json.fuelSize, Json.dump, List.length_cons, List.length_append,
      List.length_singleton]
    omega
termination_by sizeOf j

/-- The fuel needed for element lists is dominated by their serialized
length. -/
theorem fuelSize_le_arr (es : JsonArr) :
    JsonArr.fuelSize es ≤ 3 * (JsonArr.dump es).length + 1 := by
  cases es with
  | nil => simp [JsonArr.fuelSize, JsonArr.dump]
  | cons j tl =>
    have h1 := fuelSize_le_val j
    cases tl with
    | nil =>
      simp only [JsonArr.fuelSize, JsonArr.dump]
      omega
    | cons j2 tl2 =>
      have h2 := fuelSize_le_arr (JsonArr.cons j2 tl2)
      simp only [JsonArr.fuelSize, JsonArr.dump, List.length_append, List.length_cons] at h2 ⊢
      omega
termination_by sizeOf es

/-- The fuel needed for member lists is dominated by their serialized
length. -/
theorem fuelSize_le_obj (fs : JsonObj) :
    JsonObj.fuelSize fs ≤ 3 * (JsonObj.dump fs).length + 1 := by
  cases fs with
  | nil => simp [JsonObj.fuelSize, JsonObj.dump]
  | cons k v tl =>
    have h1 := fuelSize_le_val v
    cases tl with
    | nil =>
      simp only [JsonObj.fuelSize, JsonObj.dump, List.length_append, List.length_cons]
      omega
    | cons k2 v2 tl2 =>
      have h2 := fuelSize_le_obj (JsonObj.cons k2 v2 tl2)
      simp only [JsonObj.fuelSize, JsonObj.dump, List.length_append, List.length_cons] at h2 ⊢
      omega
termination_by sizeOf fs

end

/-- Round trip: re-parsing a serialized JSON value recovers it.  This is
the key fact needed to reason about tool-call arguments that the
encoders re-serialize after inserting the inner-thoughts key. -/
theorem json_loads_dumps (j : Json) : json_loads (json_dumps j) = some j := by
  have hb : Json.fuelSize j ≤ 3 * (String.mk (Json.dump j)).length + 1 := by
    have h := fuelSize_le_val j
    have hlen : (String.mk (Json.dump j)).length = (Json.dump j).length := rfl
    rw [hlen]
    omega
  have h := rt_val j (3 * (String.mk (Json.dump j)).length + 1) hb [] headNotDigit_nil
  rw [List.append_nil] at h
  unfold json_loads json_dumps
  rw [show (String.mk (Json.dump j)).data = Json.dump j from rfl, h]

/-- Setting a key makes it bound to the new value. -/
theorem lookup_setKey_self (o : JsonObj) (k : String) (v : Json) :
    JsonObj.lookup (JsonObj.setKey o k v) k = some v := by
  cases o with
  | nil => simp [JsonObj.setKey, JsonObj.lookup]
  | cons k0 v0 tl =>
    by_cases h : k0 = k
    · simp [JsonObj.setKey, h, JsonObj.lookup]
    · simp [JsonObj.setKey, h, JsonObj.lookup, lookup_setKey_self tl k v]
termination_by sizeOf o

/-- Setting a key leaves every other key's binding unchanged. -/
theorem lookup_setKey_ne (o : JsonObj) (k k2 : String) (v : Json) (hne : k2 ≠ k) :
    JsonObj.lookup (JsonObj.setKey o k v) k2 = JsonObj.lookup o k2 := by
  cases o with
  | nil => simp [JsonObj.setKey, JsonObj.lookup, Ne.symm hne]
  | cons k0 v0 tl =>
    by_cases h : k0 = k
    · subst h
      simp [JsonObj.setKey, JsonObj.lookup, Ne.symm hne]
    · simp [JsonObj.setKey, h, JsonObj.lookup, lookup_setKey_ne tl k k2 v hne]
termination_by sizeOf o

/-!
The message domain model, embedded from `memgpt/schemas/message.py`.
Python exceptions are modelled as error values of `PyErr`; each
constructor names the exception class the source raises.  Pydantic field
validation failures (a wrong type for a declared field, or a failed
`@field_validator` assert) surface as `ValidationError`.
-/

/-- Exception classes observable from the translator. -/
inductive PyErr where
  | validationError : PyErr
  | assertionError : PyErr
  | deprecationWarning : PyErr
  | userWarning : PyErr
  | notImplementedError : PyErr
  | valueError : PyErr
  | jsonDecodeError : PyErr
  | typeError : PyErr
deriving DecidableEq

/-- The `function` member of a tool call.
Modelled from the spec: the class is declared in
`memgpt/schemas/openai/chat_completions.py`, outside this snapshot; the
spec fixes its shape to `{name: string, arguments: opaque JSON-encoded
string}`. -/
structure FunctionCall where
  name : String
  arguments : String
deriving DecidableEq

/-- A tool call stored on a message record.
Modelled from the spec: the class itself lives outside this snapshot;
the spec gives `{id, kind (currently only "function"), function}`,
matching the constructor calls
`ToolCall(id=..., tool_call_type=..., function=...)` in `message.py`. -/
structure ToolCall where
  id : String
  tool_call_type : String
  function : FunctionCall
deriving DecidableEq

/-- A Python `datetime`, reduced to what the translator observes: an
opaque instant plus whether the UTC timezone is attached. -/
structure PyDateTime where
  stamp : String
  utc : Bool
deriving DecidableEq

/-- Modelled from the spec: `is_utc_datetime` (from `memgpt/utils.py`,
outside this snapshot) tests whether the datetime carries the UTC
timezone; the spec: timestamps are "normalized to UTC on read even if
constructed without a zone offset". -/
def is_utc_datetime (d : PyDateTime) : Bool := d.utc

/-- ISO-8601 rendering (`datetime.isoformat`): the offset suffix is
present exactly when a timezone is attached. -/
def PyDateTime.isoformat (d : PyDateTime) : String :=
  d.stamp ++ (if d.utc then "+00:00" else "")

/-- The reserved argument key for packed inner thoughts
(`INNER_THOUGHTS_KWARG` from `memgpt/local_llm/constants.py`, outside
this snapshot).  Its value is pinned by the source itself:
`to_google_ai_dict` asserts the literal key "inner_thoughts" is absent
immediately before inserting under `INNER_THOUGHTS_KWARG`. -/
def INNER_THOUGHTS_KWARG : String := "inner_thoughts"

/-- The canonical message record (`class Message`).  Field types follow
the pydantic declarations: `text: str` is required; the claim-relevant
optional fields are `Optional`.  Multimodal content entries are opaque
content blocks. -/
structure Message where
  id : String := ""
  role : String
  text : String
  mm_content : Option (List Json) := none
  user_id : Option String := none
  agent_id : Option String := none
  model : Option String := none
  name : Option String := none
  created_at : PyDateTime
  tool_calls : Option (List ToolCall) := none
  tool_call_id : Option String := none

/-- Pydantic construction of a `Message`: the `validate_role` field
validator asserts `role` is one of the four canonical roles, and the
required `text: str` field rejects a null; both failures surface as
pydantic `ValidationError`s.  No validator relates `tool_call_id` to
`role`. -/
def mkMessage (role : String) (text : Option String) (name : Option String)
    (model : Option String) (user_id agent_id : Option String)
    (created_at : PyDateTime) (tool_calls : Option (List ToolCall))
    (tool_call_id : Option String) : Except PyErr Message :=
  if role = "system" ∨ role = "assistant" ∨ role = "user" ∨ role = "tool" then
    match text with
    | none => .error .validationError
    | some t =>
      .ok { role := role, text := t, name := name, model := model,
            user_id := user_id, agent_id := agent_id, created_at := created_at,
            tool_calls := tool_calls, tool_call_id := tool_call_id }
  else .error .validationError

/-- The plain-dict form of a tool call, produced by pydantic
`model_dump()` in the OpenAI encoder and (shallowly) by `vars(...)` in
`to_json`: same data, no longer a `ToolCall` model value. -/
structure ToolCallDict where
  id : String
  tool_call_type : String
  function : FunctionCall
deriving DecidableEq

/-- Pydantic `model_dump` on a tool call. -/
def ToolCall.model_dump (tc : ToolCall) : ToolCallDict :=
  ⟨tc.id, tc.tool_call_type, tc.function⟩

/-- Python string slicing `s[:n]` for `n ≥ 0`. -/
def pySlice (s : String) (n : Nat) : String := String.mk (s.data.take n)

/-- Run a fallible transformation over a list, propagating the first
error — the evaluation order of a Python list comprehension whose body
can raise. -/
def mapExcept {α β : Type} (f : α → Except PyErr β) : List α → Except PyErr (List β)
  | [] => .ok []
  | a :: rest =>
    match f a with
    | .error e => .error e
    | .ok b =>
      match mapExcept f rest with
      | .error e => .error e
      | .ok bs => .ok (b :: bs)

/-- `add_inner_thoughts_to_tool_call`: parse the argument string, insert
`inner_thoughts_key ↦ inner_thoughts`, re-serialize onto a deep copy —
the input tool call is never modified.  A failed parse raises
`json.JSONDecodeError` (re-raised after a warning); arguments that parse
to a non-object fail at the item assignment `func_args[key] = ...` with
a `TypeError`, which the `except json.JSONDecodeError` clause does not
catch. -/
def add_inner_thoughts_to_tool_call (tool_call : ToolCall)
    (inner_thoughts : String) (inner_thoughts_key : String) :
    Except PyErr ToolCall :=
  match json_loads tool_call.function.arguments with
  | none => .error .jsonDecodeError
  | some (Json.obj kvs) =>
    .ok { tool_call with
          function := { tool_call.function with
            arguments := json_dumps
              (Json.obj (kvs.setKey inner_thoughts_key (Json.str inner_thoughts))) } }
  | some _ => .error .typeError

/-- A `tool_calls` entry of a modern OpenAI payload: `{id, type,
function}`. -/
structure ToolCallPayload where
  id : String
  ctype : String
  function : FunctionCall

/-- A raw OpenAI-shaped chat message as consumed by `dict_to_message`.
The `role` and `content` keys are asserted present by the adapter, so
they are modelled as fields (with `content` still nullable).  For
`tool_call_id` the source distinguishes key absence from an explicit
null (`"tool_call_id" in d` versus `d["tool_call_id"] is None`), hence
the nested option; for `name`, `function_call` and `tool_calls` an
absent key and a null value take the same branch, so one option
suffices. -/
structure OpenAIPayload where
  role : String
  content : Option String := none
  name : Option String := none
  function_call : Option FunctionCall := none
  tool_calls : Option (List ToolCallPayload) := none
  tool_call_id : Option (Option String) := none

/-- Coercion of a raw `tool_calls` entry into a stored `ToolCall`
(`ToolCall(id=tool_call["id"], tool_call_type=tool_call["type"],
function=tool_call["function"])`). -/
def toolCallOfPayload (tc : ToolCallPayload) : ToolCall :=
  ⟨tc.id, tc.ctype, tc.function⟩

/-- `Message.dict_to_message`, the legacy ingest adapter.  Three
branches: the deprecated `function`-role shape, the deprecated inline
`function_call` shape, and the modern tool-call shape.  In the
`function_call` branch, `ToolCall.id` is set from the payload's
`tool_call_id`; a null there fails the `ToolCall` model's `id: str`
validation. -/
def dict_to_message (user_id agent_id : Option String) (p : OpenAIPayload)
    (model : Option String) (allow_functions_style : Bool)
    (created_at : Option PyDateTime) (now : PyDateTime) : Except PyErr Message :=
  let ts := created_at.getD now
  if p.role = "function" then
    if ¬ allow_functions_style then .error .deprecationWarning
    else
      match p.tool_call_id with
      | none => .error .assertionError
      | some tcid =>
        mkMessage ("tool") p.content p.name model user_id agent_id ts
          ((p.tool_calls).map (fun l => l.map toolCallOfPayload)) tcid
  else
    match p.function_call with
    | some fc =>
      if ¬ allow_functions_style then .error .deprecationWarning
      else if p.role ≠ "assistant" then .error .assertionError
      else
        match p.tool_call_id with
        | none => .error .assertionError
        | some none => .error .validationError
        | some (some cid) =>
          mkMessage p.role p.content p.name model user_id agent_id ts
            (some [⟨cid, "function", ⟨fc.name, fc.arguments⟩⟩]) none
    | none =>
      let sanity : Bool :=
        if p.role = "tool" then
          match p.tool_call_id with
          | some (some _) => true
          | _ => false
        else
          match p.tool_call_id with
          | some (some _) => false
          | _ => true
      if ¬ sanity then .error .assertionError
      else
        match p.tool_calls with
        | some l =>
          if p.role ≠ "assistant" then .error .assertionError
          else
            mkMessage p.role p.content p.name model user_id agent_id ts
              (some (l.map toolCallOfPayload)) ((p.tool_call_id).getD none)
        | none =>
          mkMessage p.role p.content p.name model user_id agent_id ts
            none ((p.tool_call_id).getD none)

/-- The `content` of an OpenAI wire message: plain text, or the
multimodal block list passed through for user turns. -/
inductive OAIContent where
  | str (s : String) : OAIContent
  | mm (blocks : List Json) : OAIContent

/-- An OpenAI-compatible wire message.  `none` models an absent key for
the optional fields and a JSON null for `content`. -/
structure OpenAIMessage where
  role : String
  content : Option OAIContent
  name : Option String := none
  tool_calls : Option (List ToolCallDict) := none
  tool_call_id : Option String := none

/-- `Message.to_openai_dict`.  Asserts that hold by typing (`text: str`
is never null) are omitted; the `role`/`tool_call_id` asserts are kept
as errors.  Truncation of tool-call ids happens on the dumped dicts,
only when `max_tool_id_length` is truthy (nonzero). -/
def Message.to_openai_dict (m : Message) (max_tool_id_length : Nat)
    (put_inner_thoughts_in_kwargs : Bool) : Except PyErr OpenAIMessage :=
  if m.role = "system" then
    .ok { role := m.role, content := some (OAIContent.str m.text), name := m.name }
  else if m.role = "user" then
    .ok { role := m.role,
          content := some (match m.mm_content with
            | some blocks => OAIContent.mm blocks
            | none => OAIContent.str m.text),
          name := m.name }
  else if m.role = "assistant" then
    let content : Option OAIContent :=
      if put_inner_thoughts_in_kwargs then none else some (OAIContent.str m.text)
    match m.tool_calls with
    | none => .ok { role := m.role, content := content, name := m.name }
    | some tcs =>
      let dicts :=
        if put_inner_thoughts_in_kwargs then
          mapExcept (fun tc =>
            (add_inner_thoughts_to_tool_call tc m.text INNER_THOUGHTS_KWARG).map
              ToolCall.model_dump) tcs
        else .ok (tcs.map ToolCall.model_dump)
      match dicts with
      | .error e => .error e
      | .ok ds =>
        let ds2 := if max_tool_id_length ≠ 0 then
            ds.map (fun d => { d with id := pySlice d.id max_tool_id_length })
          else ds
        .ok { role := m.role, content := content, name := m.name, tool_calls := some ds2 }
  else if m.role = "tool" then
    match m.tool_call_id with
    | none => .error .assertionError
    | some tcid =>
      .ok { role := m.role, content := some (OAIContent.str m.text),
            tool_call_id := some (if max_tool_id_length ≠ 0 then
              pySlice tcid max_tool_id_length else tcid) }
  else .error .valueError

/-- `add_xml_tag` from `to_anthropic_dict`.  Note the closing tag in the
source's f-string ends without the final delimiter, exactly as written
there.  A falsy tag (None or the empty string) leaves the text
unwrapped. -/
def add_xml_tag (string : String) (xml_tag : Option String) : String :=
  match xml_tag with
  | some tag => if tag ≠ "" then "<" ++ tag ++ ">" ++ string ++ "</" ++ tag else string
  | none => string

/-- A typed content block of an Anthropic wire message. -/
inductive AnthropicBlock where
  | text (s : String) : AnthropicBlock
  | toolUse (id : String) (name : String) (input : Json) : AnthropicBlock
  | toolResult (tool_use_id : String) (content : String) : AnthropicBlock

/-- Anthropic message content: a bare string (user turns) or a list of
typed blocks. -/
inductive AnthropicContent where
  | plain (s : String) : AnthropicContent
  | blocks (l : List AnthropicBlock) : AnthropicContent

/-- An Anthropic wire message. -/
structure AnthropicMessage where
  role : String
  content : AnthropicContent
  name : Option String := none

/-- `Message.to_anthropic_dict`.  The assistant text block is always
emitted, since `text: str` is never null; tool-use inputs are the
parsed-JSON form of the argument strings (`json.loads` failures
propagate). -/
def Message.to_anthropic_dict (m : Message) (inner_thoughts_xml_tag : Option String) :
    Except PyErr AnthropicMessage :=
  if m.role = "system" then .error .valueError
  else if m.role = "user" then
    .ok { role := m.role, content := .plain m.text, name := m.name }
  else if m.role = "assistant" then
    let textBlocks : List AnthropicBlock :=
      [.text (add_xml_tag m.text inner_thoughts_xml_tag)]
    match m.tool_calls with
    | none => .ok { role := m.role, content := .blocks textBlocks, name := m.name }
    | some tcs =>
      match mapExcept (fun tc =>
          match json_loads tc.function.arguments with
          | none => .error .jsonDecodeError
          | some j => .ok (AnthropicBlock.toolUse tc.id tc.function.name j)) tcs with
      | .error e => .error e
      | .ok tus =>
        .ok { role := m.role, content := .blocks (textBlocks ++ tus), name := m.name }
  else if m.role = "tool" then
    match m.tool_call_id with
    | none => .error .assertionError
    | some tcid => .ok { role := "user", content := .blocks [.toolResult tcid m.text] }
  else .error .valueError

/-- A part of a Google-AI wire message. -/
inductive GooglePart where
  | text (s : String) : GooglePart
  | functionCall (name : String) (args : Json) : GooglePart
  | functionResponse (name : String) (respName : String) (content : Json) : GooglePart

/-- A Google-AI wire message. -/
structure GoogleAIMessage where
  role : String
  parts : List GooglePart

/-- `Message.to_google_ai_dict`.  Because `text: str` is never null,
the guard `not put_inner_thoughts_in_kwargs and self.text is not None`
fires for every assistant turn with packing disabled, and the packing
insertion inside the loop runs for every call (its membership assert on
the literal key "inner_thoughts" and its single-call assert first).
Argument strings that fail to parse raise `UserWarning`; arguments that
parse to a non-object fail the subsequent item operations with a
`TypeError` (approximating Python's operator errors on non-dicts).  In
the tool branch a missing participant name only produces a non-raising
`warnings.warn` diagnostic, after which the correlation id substitutes
for the name. -/
def Message.to_google_ai_dict (m : Message) (put_inner_thoughts_in_kwargs : Bool) :
    Except PyErr GoogleAIMessage :=
  if m.role ≠ "tool" ∧ m.name ≠ none then .error .userWarning
  else if m.role = "system" then
    .ok { role := "user", parts := [.text m.text] }
  else if m.role = "user" then
    .ok { role := "user", parts := [.text m.text] }
  else if m.role = "assistant" then
    if ¬ put_inner_thoughts_in_kwargs then .error .notImplementedError
    else
      match m.tool_calls with
      | some tcs =>
        match mapExcept (fun tc =>
            match json_loads tc.function.arguments with
            | none => .error .userWarning
            | some (Json.obj kvs) =>
              if put_inner_thoughts_in_kwargs then
                if kvs.hasKey ("inner_thoughts") then .error .assertionError
                else if tcs.length ≠ 1 then .error .assertionError
                else .ok (GooglePart.functionCall tc.function.name
                  (Json.obj (kvs.setKey INNER_THOUGHTS_KWARG (Json.str m.text))))
              else .ok (GooglePart.functionCall tc.function.name (Json.obj kvs))
            | some _ => .error .typeError) tcs with
        | .error e => .error e
        | .ok parts => .ok { role := "model", parts := parts }
      | none => .ok { role := "model", parts := [.text m.text] }
  else if m.role = "tool" then
    match m.tool_call_id with
    | none => .error .assertionError
    | some tcid =>
      let fname := m.name.getD tcid
      let resp := (json_loads m.text).getD
        (Json.obj (.cons ("function_response") (Json.str m.text) .nil))
      .ok { role := "function", parts := [.functionResponse fname fname resp] }
  else .error .valueError

/-- One Cohere chat-history turn. -/
structure CohereTurn where
  role : String
  message : String
deriving DecidableEq

/-- Python `str()` on a JSON leaf, used by the Cohere f-string argument
rendering; nested containers are approximated by their JSON rendering
(no claim observes that case). -/
def pyStr : Json → String
  | .str s => s
  | .num n => String.mk (intChars n)
  | .bool true => "True"
  | .bool false => "False"
  | .null => "None"
  | j => json_dumps j

/-- Render `",".join(f"{k}={v}" for k, v in function_args.items())`. -/
def argsJoin : JsonObj → String
  | .nil => ""
  | .cons k v .nil => k ++ "=" ++ pyStr v
  | .cons k v (.cons k2 v2 tl) => k ++ "=" ++ pyStr v ++ "," ++ argsJoin (.cons k2 v2 tl)

/-- Modelled from the spec: `ToolCall.to_dict` (defined outside this
snapshot) renders the call's canonical structured form, which the
Cohere encoder serializes with `json.dumps`. -/
def ToolCall.to_dict (tc : ToolCall) : Json :=
  Json.obj (.cons ("id") (Json.str tc.id)
    (.cons ("tool_call_type") (Json.str tc.tool_call_type)
      (.cons ("function") (Json.obj (.cons ("name") (Json.str tc.function.name)
        (.cons ("arguments") (Json.str tc.function.arguments) .nil))) .nil)))

/-- `Message.to_cohere_dict`.  Python truthiness governs the assistant
branching: empty text and an empty (or absent) tool-call list are both
falsy. -/
def Message.to_cohere_dict (m : Message) (function_call_role : String)
    (function_call_label : String) (function_response_role : String)
    (function_response_label : String) (inner_thoughts_as_kwarg : Bool) :
    Except PyErr (List CohereTurn) :=
  if m.role = "system" then .error .userWarning
  else if m.role = "user" then .ok [⟨"USER", m.text⟩]
  else if m.role = "assistant" then
    let hasText := m.text ≠ ""
    let tcsOpt : Option (List ToolCall) :=
      match m.tool_calls with
      | some l => if l = [] then none else some l
      | none => none
    match tcsOpt with
    | some tcs =>
      if hasText then
        if inner_thoughts_as_kwarg then .error .notImplementedError
        else
          match mapExcept (fun tc =>
              match json_loads tc.function.arguments with
              | none => .error .jsonDecodeError
              | some (Json.obj kvs) =>
                .ok (⟨function_call_role,
                  function_call_label ++ " " ++ tc.function.name ++ "(" ++
                    argsJoin kvs ++ ")"⟩ : CohereTurn)
              | some _ => .error .typeError) tcs with
          | .error e => .error e
          | .ok turns => .ok (⟨"CHATBOT", m.text⟩ :: turns)
      else
        .ok (tcs.map (fun tc =>
          ⟨function_call_role, function_call_label ++ " " ++ json_dumps tc.to_dict⟩))
    | none =>
      if hasText then .ok [⟨"CHATBOT", m.text⟩]
      else .error .valueError
  else if m.role = "tool" then
    match m.tool_call_id with
    | none => .error .assertionError
    | some _ => .ok [⟨function_response_role, function_response_label ++ " " ++ m.text⟩]
  else .error .valueError

/-- The field dictionary (`self.__dict__`) of a message object.  After
construction every field holds its declared type (the left summands);
`to_json` rewrites two fields in place, leaving the right summands:
`tool_calls` becomes a list of plain dicts and `created_at` becomes an
ISO string. -/
structure MessageFields where
  id : String
  role : String
  text : String
  mm_content : Option (List Json)
  user_id : Option String
  agent_id : Option String
  model : Option String
  name : Option String
  created_at : Sum PyDateTime String
  tool_calls : Option (Sum (List ToolCall) (List ToolCallDict))
  tool_call_id : Option String

/-- The field dictionary of a freshly validated message: every field
still holds its declared, typed value. -/
def Message.fields (m : Message) : MessageFields :=
  { id := m.id, role := m.role, text := m.text, mm_content := m.mm_content,
    user_id := m.user_id, agent_id := m.agent_id, model := m.model,
    name := m.name, created_at := Sum.inl m.created_at,
    tool_calls := m.tool_calls.map Sum.inl, tool_call_id := m.tool_call_id }

/-- `Message.to_json`.  The source takes `json_message = vars(self)` —
the record's own field dictionary, not a copy — then assigns
`json_message["tool_calls"] = [vars(tc) for tc in ...]` and
`json_message["created_at"] = self.created_at.isoformat()` (after
forcing the timezone to UTC on `self.created_at` when absent).  The
returned dictionary and the record's post-call field dictionary are
therefore the same object; this function computes that shared final
state. -/
def Message.to_json (m : Message) : MessageFields :=
  let d := if is_utc_datetime m.created_at then m.created_at
    else { m.created_at with utc := true }
  { m.fields with
    tool_calls := m.tool_calls.map (fun l => Sum.inr (l.map ToolCall.model_dump)),
    created_at := Sum.inr d.isoformat }

/-- Inversion of a successful pydantic construction: all fields are the
supplied arguments (with `text` forced non-null). -/
theorem mkMessage_ok_fields {role : String} {text : Option String}
    {name model user_id agent_id : Option String} {created_at : PyDateTime}
    {tool_calls : Option (List ToolCall)} {tool_call_id : Option String} {m : Message}
    (h : mkMessage role text name model user_id agent_id created_at tool_calls tool_call_id
      = Except.ok m) :
    m.role = role ∧ m.name = name ∧ m.model = model ∧ m.user_id = user_id ∧
    m.agent_id = agent_id ∧ m.created_at = created_at ∧ m.tool_calls = tool_calls ∧
    m.tool_call_id = tool_call_id ∧ text = some m.text ∧ m.id = "" ∧
    m.mm_content = none := by
  unfold mkMessage at h
  by_cases hr : role = "system" ∨ role = "assistant" ∨ role = "user" ∨ role = "tool"
  · rw [if_pos hr] at h
    cases text with
    | none => simp at h
    | some t =>
      simp only [Except.ok.injEq] at h
      subst h
      simp
  · rw [if_neg hr] at h
    simp at h

/-- The OpenAI encoder on a system record. -/
theorem to_openai_dict_system (m : Message) (maxlen : Nat) (b : Bool)
    (hrole : m.role = "system") :
    Message.to_openai_dict m maxlen b
      = Except.ok { role := m.role, content := some (OAIContent.str m.text),
                    name := m.name } := by
  unfold Message.to_openai_dict
  rw [hrole]
  simp

/-- The OpenAI encoder on a user record. -/
theorem to_openai_dict_user (m : Message) (maxlen : Nat) (b : Bool)
    (hrole : m.role = "user") :
    Message.to_openai_dict m maxlen b
      = Except.ok { role := m.role,
                    content := some (match m.mm_content with
                      | some blocks => OAIContent.mm blocks
                      | none => OAIContent.str m.text),
                    name := m.name } := by
  unfold Message.to_openai_dict
  rw [hrole]
  simp

/-- The OpenAI encoder on an assistant record without tool calls. -/
theorem to_openai_dict_assistant_nocalls (m : Message) (maxlen : Nat) (b : Bool)
    (hrole : m.role = "assistant") (hnone : m.tool_calls = none) :
    Message.to_openai_dict m maxlen b
      = Except.ok { role := m.role,
                    content := (if b then none else some (OAIContent.str m.text)),
                    name := m.name } := by
  unfold Message.to_openai_dict
  rw [hrole, hnone]
  simp

/-- The OpenAI encoder on an assistant record with tool calls: pack if
requested, dump, then truncate ids. -/
theorem to_openai_dict_assistant_calls (m : Message) (maxlen : Nat) (b : Bool)
    (tcs : List ToolCall) (hrole : m.role = "assistant") (htc : m.tool_calls = some tcs) :
    Message.to_openai_dict m maxlen b
      = match (if b then
            mapExcept (fun tc =>
              (add_inner_thoughts_to_tool_call tc m.text INNER_THOUGHTS_KWARG).map
                ToolCall.model_dump) tcs
          else Except.ok (tcs.map ToolCall.model_dump)) with
        | .error e => .error e
        | .ok ds =>
          Except.ok { role := m.role,
                      content := (if b then none else some (OAIContent.str m.text)),
                      name := m.name,
                      tool_calls := some (if maxlen ≠ 0 then
                          ds.map (fun d => { d with id := pySlice d.id maxlen })
                        else ds) } := by
  unfold Message.to_openai_dict
  rw [hrole, htc]
  simp

/-- The OpenAI encoder on a tool record with a correlation id. -/
theorem to_openai_dict_tool (m : Message) (maxlen : Nat) (b : Bool) (tcid : String)
    (hrole : m.role = "tool") (hid : m.tool_call_id = some tcid) :
    Message.to_openai_dict m maxlen b
      = Except.ok { role := m.role, content := some (OAIContent.str m.text),
                    tool_call_id := some (if maxlen ≠ 0 then pySlice tcid maxlen
                      else tcid) } := by
  unfold Message.to_openai_dict
  rw [hrole, hid]
  simp

/-- The Google encoder rejects any non-tool record that carries a
participant name, before looking at anything else. -/
theorem to_google_ai_dict_named (m : Message) (b : Bool) (nm : String)
    (hrole : m.role ≠ "tool") (hname : m.name = some nm) :
    Message.to_google_ai_dict m b = Except.error PyErr.userWarning := by
  unfold Message.to_google_ai_dict
  rw [if_pos ⟨hrole, by simp [hname]⟩]

/-- The Google encoder on an unnamed assistant record. -/
theorem to_google_ai_dict_assistant (m : Message) (b : Bool)
    (hrole : m.role = "assistant") (hname : m.name = none) :
    Message.to_google_ai_dict m b
      = if ¬ b then Except.error PyErr.notImplementedError
        else match m.tool_calls with
          | some tcs =>
            (match mapExcept (fun tc =>
                match json_loads tc.function.arguments with
                | none => .error .userWarning
                | some (Json.obj kvs) =>
                  if b then
                    if kvs.hasKey ("inner_thoughts") then .error .assertionError
                    else if tcs.length ≠ 1 then .error .assertionError
                    else .ok (GooglePart.functionCall tc.function.name
                      (Json.obj (kvs.setKey INNER_THOUGHTS_KWARG (Json.str m.text))))
                  else .ok (GooglePart.functionCall tc.function.name (Json.obj kvs))
                | some _ => .error .typeError) tcs with
              | .error e => .error e
              | .ok parts => Except.ok { role := "model", parts := parts })
          | none => Except.ok { role := "model", parts := [.text m.text] } := by
  unfold Message.to_google_ai_dict
  rw [if_neg (by simp [hname])]
  rw [hrole]
  simp

/-- The Anthropic encoder rejects system records outright. -/
theorem to_anthropic_dict_system (m : Message) (tag : Option String)
    (hrole : m.role = "system") :
    Message.to_anthropic_dict m tag = Except.error PyErr.valueError := by
  unfold Message.to_anthropic_dict
  rw [hrole]
  simp

/-- The Anthropic encoder on a user record. -/
theorem to_anthropic_dict_user (m : Message) (tag : Option String)
    (hrole : m.role = "user") :
    Message.to_anthropic_dict m tag
      = Except.ok { role := m.role, content := .plain m.text, name := m.name } := by
  unfold Message.to_anthropic_dict
  rw [hrole]
  simp

/-- The Anthropic encoder on an assistant record without tool calls. -/
theorem to_anthropic_dict_assistant_nocalls (m : Message) (tag : Option String)
    (hrole : m.role = "assistant") (hnone : m.tool_calls = none) :
    Message.to_anthropic_dict m tag
      = Except.ok { role := m.role,
                    content := .blocks [.text (add_xml_tag m.text tag)],
                    name := m.name } := by
  unfold Message.to_anthropic_dict
  rw [hrole, hnone]
  simp

/-- The Cohere encoder rejects system records outright. -/
theorem to_cohere_dict_system (m : Message) (fcr fcl frr frl : String) (itk : Bool)
    (hrole : m.role = "system") :
    Message.to_cohere_dict m fcr fcl frr frl itk = Except.error PyErr.userWarning := by
  unfold Message.to_cohere_dict
  rw [hrole]
  simp

/-- The Cohere encoder on a user record. -/
theorem to_cohere_dict_user (m : Message) (fcr fcl frr frl : String) (itk : Bool)
    (hrole : m.role = "user") :
    Message.to_cohere_dict m fcr fcl frr frl itk = Except.ok [⟨"USER", m.text⟩] := by
  unfold Message.to_cohere_dict
  rw [hrole]
  simp

/-- The Cohere encoder on a text-only assistant record. -/
theorem to_cohere_dict_assistant_textonly (m : Message) (fcr fcl frr frl : String)
    (itk : Bool) (hrole : m.role = "assistant") (hnone : m.tool_calls = none)
    (htext : m.text ≠ "") :
    Message.to_cohere_dict m fcr fcl frr frl itk = Except.ok [⟨"CHATBOT", m.text⟩] := by
  unfold Message.to_cohere_dict
  rw [hrole, hnone]
  simp [htext]

/-- A sample UTC timestamp for the concrete instances below. -/
def utc0 : PyDateTime := ⟨("2024-01-01T00:00:00"), true⟩

/-- C9: ingesting the raw payload `{role:"function", content:"ok",
name:"foo", tool_call_id:"tc1"}` through the legacy ingest adapter with
the deprecated path enabled yields a record with role=tool, text="ok",
name="foo" and toolCallId="tc1"; with the deprecated path disabled the
same payload is rejected (the adapter raises `DeprecationWarning`). -/
theorem c9_legacy_function_ingest :
    dict_to_message none none
        { role := "function", content := some ("ok"), name := some ("foo"),
          tool_call_id := some (some ("tc1")) } none true none utc0
      = Except.ok { role := "tool", text := "ok", name := some ("foo"),
                    created_at := utc0, tool_call_id := some ("tc1") }
    ∧ dict_to_message none none
        { role := "function", content := some ("ok"), name := some ("foo"),
          tool_call_id := some (some ("tc1")) } none false none utc0
      = Except.error PyErr.deprecationWarning :=
  ⟨rfl, rfl⟩

/-- The tool call of the C2 instance. -/
def tcC2 : ToolCall := ⟨"tc-1", "function", ⟨"send_message", "\x7b\"text\":\"hello\"\x7d"⟩⟩

/-- The C2 instance: a valid assistant record holding one tool call and
a timezone-naive creation timestamp. -/
def msgC2 : Message :=
  { role := "assistant", text := "hi",
    created_at := ⟨("2024-01-01T00:00:00"), false⟩, tool_calls := some [tcC2] }

/-- C2: `to_json` mutates the record it projects.  The call returns the
record's own field dictionary (`vars(self)`), inside which the stored
tool calls have been overwritten by plain dicts and the stored
`created_at` by an ISO string — so after the call the record no longer
holds `ToolCall` values nor its original timestamp, contradicting the
claimed frame condition. -/
theorem c2_to_json_mutates_record :
    (Message.to_json msgC2).tool_calls = some (Sum.inr [ToolCall.model_dump tcC2])
    ∧ (Message.to_json msgC2).created_at = Sum.inr ("2024-01-01T00:00:00+00:00")
    ∧ Message.to_json msgC2 ≠ msgC2.fields := by
  refine ⟨rfl, rfl, ?_⟩
  intro h
  simp [Message.to_json, Message.fields, msgC2, is_utc_datetime,
    PyDateTime.isoformat] at h

/-- The C5 instance: an assistant record with reasoning text and one
tool call whose arguments parse as a JSON object. -/
def msgC5 : Message :=
  { role := "assistant", text := "hi", created_at := utc0,
    tool_calls := some [⟨"tu1", "function", ⟨"search", "\x7b\"q\":\"cats\"\x7d"⟩⟩] }

/-- C5: evaluating the Anthropic encoder at the failing input.  The
first content block wraps the text, but the closing tag lacks its final
delimiter (`</thinking` instead of `</thinking>`): the last character of
the wrapped text is not the delimiter.  The tool-use block does carry
the call's id, name and parsed-JSON arguments as the claim states. -/
theorem c5_anthropic_missing_tag_delimiter :
    Message.to_anthropic_dict msgC5 (some ("thinking"))
      = Except.ok { role := "assistant",
                    content := AnthropicContent.blocks
                      [AnthropicBlock.text ("<thinking>hi</thinking"),
                       AnthropicBlock.toolUse ("tu1") ("search")
                         (Json.obj (JsonObj.cons ("q") (Json.str ("cats")) JsonObj.nil))],
                    name := none }
    ∧ (add_xml_tag ("hi") (some ("thinking"))).data.getLast? ≠ some '>' :=
  ⟨rfl, by decide⟩

/-- The C6 counterexample instance: an assistant record that has text
but no tool calls. -/
def msgC6 : Message := { role := "assistant", text := "hi", created_at := utc0 }

/-- C6 counterexample: with packing enabled (the encoder's default) and
no tool calls, the OpenAI encoder emits `content = null` even though no
thoughts were packed anywhere — the output does not equal the record's
text "hi", contradicting the claim's "in particular" case. -/
theorem c6_packed_without_calls_content_null :
    Message.to_openai_dict msgC6 29 true
      = Except.ok { role := "assistant", content := none }
    ∧ msgC6.text = "hi" :=
  ⟨rfl, rfl⟩

/-- C6 (amended): for every assistant record the OpenAI encoder's
output content is null exactly when the packing flag is set — whether
or not any tool call exists to receive the packed text — and otherwise
equals the record's text. -/
theorem c6_assistant_content (m : Message) (maxlen : Nat) (b : Bool)
    (out : OpenAIMessage) (hrole : m.role = "assistant")
    (h : Message.to_openai_dict m maxlen b = Except.ok out) :
    out.content = if b then none else some (OAIContent.str m.text) := by
  rcases htc : m.tool_calls with _ | tcs
  · rw [to_openai_dict_assistant_nocalls m maxlen b hrole htc] at h
    simp only [Except.ok.injEq] at h
    subst h
    rfl
  · rw [to_openai_dict_assistant_calls m maxlen b tcs hrole htc] at h
    split at h
    · simp at h
    · simp only [Except.ok.injEq] at h
      subst h
      rfl

/-- The C6 witness instance and its encoder output. -/
def msgC6w : Message := { role := "assistant", text := "ok", created_at := utc0 }

/-- Output of the OpenAI encoder on the C6 witness instance. -/
def outC6w : OpenAIMessage :=
  { role := "assistant", content := some (OAIContent.str ("ok")) }

/-- Witness for the amended C6 theorem at a concrete input. -/
theorem c6_assistant_content_witness :
    msgC6w.role = "assistant"
    ∧ Message.to_openai_dict msgC6w 29 false = Except.ok outC6w
    ∧ outC6w.content = if false then none else some (OAIContent.str msgC6w.text) :=
  ⟨rfl, rfl, c6_assistant_content msgC6w 29 false outC6w rfl rfl⟩

/-- C1 counterexample: direct pydantic construction of a user record
with a non-null `toolCallId` succeeds.  No validator relates the two
fields, so this violating record does not fail validation at
construction, contradicting the claim for the direct-construction
path. -/
theorem c1_direct_construction_unchecked :
    mkMessage ("user") (some ("hi")) none none none none utc0 none (some ("tc-x"))
      = Except.ok { role := "user", text := "hi", created_at := utc0,
                    tool_call_id := some ("tc-x") }
    ∧ ("user" : String) ≠ "tool" ∧ (some ("tc-x") : Option String) ≠ none :=
  ⟨rfl, by decide, by decide⟩

/-- C1 (amended): every record produced by the legacy ingest adapter
outside the deprecated `function`-role branch satisfies role=tool ⇔
toolCallId non-null, violating payloads failing there with an error;
direct construction (see the counterexample) and the `function`-role
branch do not enforce the invariant. -/
theorem c1_adapter_invariant (u a : Option String) (p : OpenAIPayload)
    (mo : Option String) (allow : Bool) (ca : Option PyDateTime) (now : PyDateTime)
    (m : Message) (hrole : p.role ≠ "function")
    (h : dict_to_message u a p mo allow ca now = Except.ok m) :
    m.role = "tool" ↔ m.tool_call_id ≠ none := by
  unfold dict_to_message at h
  rw [if_neg hrole] at h
  rcases hfc : p.function_call with _ | fc
  · rw [hfc] at h
    by_cases hrt : p.role = "tool"
    · rcases htci : p.tool_call_id with _ | otc
      · simp [hrt, htci] at h
      · rcases otc with _ | cid
        · simp [hrt, htci] at h
        · rcases htcs : p.tool_calls with _ | l
          · simp [hrt, htci, htcs] at h
            obtain ⟨hr, -, -, -, -, -, -, hid, -, -, -⟩ := mkMessage_ok_fields h
            rw [hr, hid]
            simp
          · simp [hrt, htci, htcs] at h
    · rcases htci : p.tool_call_id with _ | otc
      · rcases htcs : p.tool_calls with _ | l
        · simp [hrt, htci, htcs] at h
          obtain ⟨hr, -, -, -, -, -, -, hid, -, -, -⟩ := mkMessage_ok_fields h
          rw [hr, hid]
          simp [hrt]
        · by_cases hra : p.role = "assistant"
          · simp [hrt, htci, htcs, hra] at h
            obtain ⟨hr, -, -, -, -, -, -, hid, -, -, -⟩ := mkMessage_ok_fields h
            rw [hr, hid]
            simp
          · simp [hrt, htci, htcs, hra] at h
      · rcases otc with _ | cid
        · rcases htcs : p.tool_calls with _ | l
          · simp [hrt, htci, htcs] at h
            obtain ⟨hr, -, -, -, -, -, -, hid, -, -, -⟩ := mkMessage_ok_fields h
            rw [hr, hid]
            simp [hrt]
          · by_cases hra : p.role = "assistant"
            · simp [hrt, htci, htcs, hra] at h
              obtain ⟨hr, -, -, -, -, -, -, hid, -, -, -⟩ := mkMessage_ok_fields h
              rw [hr, hid]
              simp
            · simp [hrt, htci, htcs, hra] at h
        · simp [hrt, htci] at h
  · rw [hfc] at h
    cases allow with
    | false => simp at h
    | true =>
      by_cases hra : p.role = "assistant"
      · simp [hra] at h
        rcases htci : p.tool_call_id with _ | otc
        · simp [htci] at h
        · rcases otc with _ | cid
          · simp [htci] at h
          · simp [htci] at h
            obtain ⟨hr, -, -, -, -, -, -, hid, -, -, -⟩ := mkMessage_ok_fields h
            rw [hr, hid]
            simp
      · simp [hra] at h

/-- The C1 witness payload: a modern tool-role payload. -/
def payC1w : OpenAIPayload :=
  { role := "tool", content := some ("ok"), tool_call_id := some (some ("tc9")) }

/-- The record the adapter produces from `payC1w`. -/
def msgC1w : Message :=
  { role := "tool", text := "ok", created_at := utc0, tool_call_id := some ("tc9") }

/-- Witness for the amended C1 theorem at a concrete ingested payload. -/
theorem c1_adapter_invariant_witness :
    payC1w.role ≠ "function"
    ∧ dict_to_message none none payC1w none true none utc0 = Except.ok msgC1w
    ∧ (msgC1w.role = "tool" ↔ msgC1w.tool_call_id ≠ none) :=
  ⟨by decide, rfl,
    c1_adapter_invariant none none payC1w none true none utc0 msgC1w (by decide) rfl⟩

/-- C10 counterexample: a system record carrying a participant name is
rejected by the Anthropic encoder as well (the system role is
unsupported there), so it is not the case that the other three encoders
accept every non-tool record that carries a name. -/
theorem c10_anthropic_rejects_named_system :
    Message.to_anthropic_dict
        { role := "system", text := "s", name := some ("nm"), created_at := utc0 }
        (some ("thinking"))
      = Except.error PyErr.valueError := rfl

/-- C10 (amended): the Google encoder raises before producing any
output on every non-tool record with a non-null name.  The name itself
is no obstacle elsewhere: the OpenAI encoder accepts such records for
all three non-tool roles, and the Anthropic and Cohere encoders accept
the user and assistant ones — they reject system records for the
unrelated reason that the system role is unsupported there. -/
theorem c10_google_rejects_named (m : Message) (b : Bool) (nm : String)
    (maxlen : Nat) (b2 : Bool) (tag : Option String) (fcr fcl frr frl : String)
    (itk : Bool) (hname : m.name = some nm) :
    (m.role ≠ "tool" → Message.to_google_ai_dict m b = Except.error PyErr.userWarning)
    ∧ ((m.role = "system" ∨ m.role = "user" ∨ m.role = "assistant") →
        m.tool_calls = none →
        (∃ out, Message.to_openai_dict m maxlen b2 = Except.ok out)
        ∧ ((m.role = "user" ∨ m.role = "assistant") →
            (∃ outA, Message.to_anthropic_dict m tag = Except.ok outA)
            ∧ (m.text ≠ "" →
                ∃ outC, Message.to_cohere_dict m fcr fcl frr frl itk = Except.ok outC))) := by
  refine ⟨fun hrt => to_google_ai_dict_named m b nm hrt hname, fun hr3 htc => ⟨?_, ?_⟩⟩
  · rcases hr3 with hr | hr | hr
    · exact ⟨_, to_openai_dict_system m maxlen b2 hr⟩
    · exact ⟨_, to_openai_dict_user m maxlen b2 hr⟩
    · exact ⟨_, to_openai_dict_assistant_nocalls m maxlen b2 hr htc⟩
  · rintro (hr | hr)
    · exact ⟨⟨_, to_anthropic_dict_user m tag hr⟩,
        fun ht => ⟨_, to_cohere_dict_user m fcr fcl frr frl itk hr⟩⟩
    · exact ⟨⟨_, to_anthropic_dict_assistant_nocalls m tag hr htc⟩,
        fun ht => ⟨_, to_cohere_dict_assistant_textonly m fcr fcl frr frl itk hr htc ht⟩⟩

/-- The C10 witness instance: a named user record. -/
def msgC10w : Message :=
  { role := "user", text := "hi", name := some ("nm"), created_at := utc0 }

/-- Witness for the amended C10 theorem at a concrete input. -/
theorem c10_google_rejects_named_witness :
    msgC10w.name = some ("nm") ∧ msgC10w.role ≠ "tool"
    ∧ Message.to_google_ai_dict msgC10w true = Except.error PyErr.userWarning :=
  ⟨rfl, by decide,
    (c10_google_rejects_named msgC10w true ("nm") 29 true (some ("thinking"))
      ("SYSTEM") ("[CHATBOT called function]") ("SYSTEM") ("[CHATBOT function returned]")
      false rfl).1 (by decide)⟩

/-- Length of a Python slice `s[:n]`. -/
theorem pySlice_length (s : String) (n : Nat) :
    (pySlice s n).length = min n s.length := by
  show (s.data.take n).length = min n s.length
  rw [List.length_take]
  rfl

/-- A slice is an initial segment: appending the dropped tail restores
the original characters. -/
theorem pySlice_prefix (s : String) (n : Nat) :
    (pySlice s n).data ++ s.data.drop n = s.data :=
  List.take_append_drop n s.data

/-- A slice shorter than the string is distinct from it. -/
theorem pySlice_ne (s : String) (n : Nat) (h : n < s.length) : pySlice s n ≠ s := by
  intro heq
  have hl := congrArg String.length heq
  rw [pySlice_length] at hl
  omega

/-- A slice at least as long as the string is the string itself. -/
theorem pySlice_of_le (s : String) (n : Nat) (h : s.length ≤ n) : pySlice s n = s := by
  unfold pySlice
  rw [List.take_of_length_le h, strMk_data]

/-- Every element of a successful `mapExcept` image comes from a source
element mapped successfully. -/
theorem mapExcept_mem_ok {α β : Type} (f : α → Except PyErr β) (l : List α)
    (bs : List β) (h : mapExcept f l = Except.ok bs) (b : β) (hb : b ∈ bs) :
    ∃ a ∈ l, f a = Except.ok b := by
  cases l with
  | nil =>
    simp [mapExcept] at h
    subst h
    simp at hb
  | cons a rest =>
    unfold mapExcept at h
    cases hfa : f a with
    | error e => rw [hfa] at h; simp at h
    | ok b0 =>
      rw [hfa] at h
      cases hrest : mapExcept f rest with
      | error e => rw [hrest] at h; simp at h
      | ok bs0 =>
        rw [hrest] at h
        simp only [Except.ok.injEq] at h
        subst h
        rcases List.mem_cons.mp hb with hb0 | hbs0
        · exact ⟨a, by simp, hb0 ▸ hfa⟩
        · obtain ⟨a2, ha2, hfa2⟩ := mapExcept_mem_ok f rest bs0 hrest b hbs0
          exact ⟨a2, by simp [ha2], hfa2⟩
termination_by sizeOf l

/-- Injecting inner thoughts never changes the tool call's id. -/
theorem add_inner_ok_id (tc tc' : ToolCall) (s k : String)
    (h : add_inner_thoughts_to_tool_call tc s k = Except.ok tc') : tc'.id = tc.id := by
  unfold add_inner_thoughts_to_tool_call at h
  split at h
  · simp at h
  · simp only [Except.ok.injEq] at h
    subst h
    rfl
  · simp at h

/-- The packed-and-dumped dict of the OpenAI encoder keeps the source
call's id. -/
theorem packed_dump_ok_id (s : String) (tc : ToolCall) (d : ToolCallDict)
    (h : (add_inner_thoughts_to_tool_call tc s INNER_THOUGHTS_KWARG).map
      ToolCall.model_dump = Except.ok d) : d.id = tc.id := by
  cases hai : add_inner_thoughts_to_tool_call tc s INNER_THOUGHTS_KWARG with
  | error e => rw [hai] at h; simp [Except.map] at h
  | ok tc' =>
    rw [hai] at h
    simp only [Except.map, Except.ok.injEq] at h
    subst h
    exact add_inner_ok_id tc tc' s INNER_THOUGHTS_KWARG hai

/-- C8: with `maxToolIdLength = 8` and 40-character tool-call ids, the
OpenAI encoder truncates at encode time: the tool record's output
`tool_call_id` and every assistant output call id are exactly 8
characters and a strict prefix of the stored id, while the record's own
fields (from which the prefix relation is stated) are untouched. -/
theorem c8_truncation (m : Message) (b : Bool) :
    (∀ cid : String, m.role = "tool" → m.tool_call_id = some cid → cid.length = 40 →
      Message.to_openai_dict m 8 b
        = Except.ok { role := m.role, content := some (OAIContent.str m.text),
                      tool_call_id := some (pySlice cid 8) }
      ∧ (pySlice cid 8).length = 8 ∧ pySlice cid 8 ≠ cid
      ∧ (pySlice cid 8).data ++ cid.data.drop 8 = cid.data)
    ∧ (∀ (tcs : List ToolCall) (ds : List ToolCallDict) (out : OpenAIMessage),
        m.role = "assistant" → m.tool_calls = some tcs →
        (∀ tc ∈ tcs, tc.id.length = 40) →
        Message.to_openai_dict m 8 b = Except.ok out →
        out.tool_calls = some ds →
        ∀ d ∈ ds, ∃ tc ∈ tcs, d.id = pySlice tc.id 8 ∧ d.id.length = 8
          ∧ d.id ≠ tc.id ∧ d.id.data ++ tc.id.data.drop 8 = tc.id.data) := by
  constructor
  · intro cid hrole hid hlen
    refine ⟨?_, ?_, pySlice_ne cid 8 (by omega), pySlice_prefix cid 8⟩
    · rw [to_openai_dict_tool m 8 b cid hrole hid]
      simp
    · rw [pySlice_length, hlen]
      omega
  · intro tcs ds out hrole htc hlen hok hds
    rw [to_openai_dict_assistant_calls m 8 b tcs hrole htc] at hok
    rcases hbig : (if b then
          mapExcept (fun tc =>
            (add_inner_thoughts_to_tool_call tc m.text INNER_THOUGHTS_KWARG).map
              ToolCall.model_dump) tcs
        else Except.ok (tcs.map ToolCall.model_dump)) with e | ds0
    · rw [hbig] at hok
      simp at hok
    · rw [hbig] at hok
      simp only [Except.ok.injEq] at hok
      subst hok
      simp at hds
      subst hds
      intro d hd
      obtain ⟨d0, hd0mem, rfl⟩ := List.mem_map.mp hd
      have hfind : ∃ tc ∈ tcs, d0.id = tc.id := by
        cases b with
        | true =>
          simp only [if_true] at hbig
          obtain ⟨tc, htcmem, hftc⟩ := mapExcept_mem_ok _ tcs ds0 hbig d0 hd0mem
          exact ⟨tc, htcmem, packed_dump_ok_id m.text tc d0 hftc⟩
        | false =>
          simp at hbig
          subst hbig
          obtain ⟨tc, htcmem, rfl⟩ := List.mem_map.mp hd0mem
          exact ⟨tc, htcmem, rfl⟩
      obtain ⟨tc, htcmem, hdid⟩ := hfind
      have hl := hlen tc htcmem
      refine ⟨tc, htcmem, ?_, ?_, ?_, ?_⟩
      · simp [hdid]
      · simp [hdid, pySlice_length, hl]
      · simp only [hdid]
        exact pySlice_ne tc.id 8 (by omega)
      · simp only [hdid]
        exact pySlice_prefix tc.id 8

/-- The C8 witness instance: a tool record with a 40-character
correlation id. -/
def idC8 : String := "0123456789012345678901234567890123456789"

/-- The C8 witness record. -/
def msgC8w : Message :=
  { role := "tool", text := "done", created_at := utc0, tool_call_id := some idC8 }

/-- Witness for C8 at a concrete input. -/
theorem c8_truncation_witness :
    msgC8w.role = "tool" ∧ msgC8w.tool_call_id = some idC8 ∧ idC8.length = 40
    ∧ (pySlice idC8 8).length = 8 ∧ pySlice idC8 8 ≠ idC8 :=
  ⟨rfl, rfl, rfl,
    ((c8_truncation msgC8w true).1 idC8 rfl rfl rfl).2.1,
    ((c8_truncation msgC8w true).1 idC8 rfl rfl rfl).2.2.1⟩

/-- The C7 counterexample instance: an assistant record with text and
exactly one tool call whose argument string is not valid JSON. -/
def msgC7cex : Message :=
  { role := "assistant", text := "t", created_at := utc0,
    tool_calls := some [⟨"id1", "function", ⟨"search", "oops"⟩⟩] }

/-- C7 counterexample: with packing enabled and exactly one tool call
the Google encoder does not always succeed — an argument string that
fails to parse raises (`UserWarning`), refuting the claim's success
case as stated. -/
theorem c7_unparseable_args_rejected :
    Message.to_google_ai_dict msgC7cex true = Except.error PyErr.userWarning := rfl

/-- C7 (amended): for an unnamed assistant record holding both text and
tool calls, the Google encoder fails with `NotImplementedError` when
packing is disabled; with packing enabled it fails whenever the record
has two or more tool calls; and with packing enabled and exactly one
tool call whose arguments parse as a JSON object not already containing
the reserved key, it succeeds and emits a single function-call part and
no separate text part. -/
theorem c7_google_mixed_content (m : Message) (tcs : List ToolCall)
    (hrole : m.role = "assistant") (hname : m.name = none)
    (htc : m.tool_calls = some tcs) (hne : tcs ≠ []) :
    Message.to_google_ai_dict m false = Except.error PyErr.notImplementedError
    ∧ (2 ≤ tcs.length → ∃ e, Message.to_google_ai_dict m true = Except.error e)
    ∧ (∀ tc kvs, tcs = [tc] →
        json_loads tc.function.arguments = some (Json.obj kvs) →
        kvs.hasKey ("inner_thoughts") = false →
        Message.to_google_ai_dict m true
          = Except.ok { role := "model",
                        parts := [GooglePart.functionCall tc.function.name
                          (Json.obj (kvs.setKey INNER_THOUGHTS_KWARG
                            (Json.str m.text)))] }) := by
  refine ⟨?_, ?_, ?_⟩
  · rw [to_google_ai_dict_assistant m false hrole hname]
    simp
  · intro hlen2
    rcases tcs with _ | ⟨t1, rest⟩
    · simp at hne
    · rw [to_google_ai_dict_assistant m true hrole hname, htc]
      rcases hg : json_loads t1.function.arguments with _ | j
      · exact ⟨PyErr.userWarning, by simp [mapExcept, hg]⟩
      · have hrest : rest ≠ [] := by
          intro hr
          subst hr
          simp at hlen2
        rcases j with _ | b0 | n0 | s0 | es0 | kvs0
        · exact ⟨PyErr.typeError, by simp [mapExcept, hg]⟩
        · exact ⟨PyErr.typeError, by simp [mapExcept, hg]⟩
        · exact ⟨PyErr.typeError, by simp [mapExcept, hg]⟩
        · exact ⟨PyErr.typeError, by simp [mapExcept, hg]⟩
        · exact ⟨PyErr.typeError, by simp [mapExcept, hg]⟩
        · by_cases hk : kvs0.hasKey ("inner_thoughts")
          · exact ⟨PyErr.assertionError, by simp [mapExcept, hg, hk]⟩
          · exact ⟨PyErr.assertionError, by simp [mapExcept, hg, hk, hrest]⟩
  · intro tc kvs heq hargs hfree
    subst heq
    rw [to_google_ai_dict_assistant m true hrole hname, htc]
    simp [mapExcept, hargs, hfree]

/-- The C7 witness tool call: arguments parse to a JSON object without
the reserved key. -/
def tcC7w : ToolCall := ⟨"c7-1", "function", ⟨"lookup", "\x7b\"k\":\"v\"\x7d"⟩⟩

/-- The C7 witness record. -/
def msgC7w : Message :=
  { role := "assistant", text := "thinking about it", created_at := utc0,
    tool_calls := some [tcC7w] }

/-- Witness for the amended C7 theorem at a concrete input. -/
theorem c7_google_mixed_content_witness :
    msgC7w.tool_calls = some [tcC7w]
    ∧ Message.to_google_ai_dict msgC7w false = Except.error PyErr.notImplementedError
    ∧ Message.to_google_ai_dict msgC7w true
        = Except.ok { role := "model",
                      parts := [GooglePart.functionCall ("lookup")
                        (Json.obj (JsonObj.cons ("k") (Json.str ("v"))
                            JsonObj.nil |>.setKey INNER_THOUGHTS_KWARG
                          (Json.str ("thinking about it"))))] } :=
  ⟨rfl,
    (c7_google_mixed_content msgC7w [tcC7w] rfl rfl rfl (by decide)).1,
    (c7_google_mixed_content msgC7w [tcC7w] rfl rfl rfl (by decide)).2.2 tcC7w
      (JsonObj.cons ("k") (Json.str ("v")) JsonObj.nil) rfl rfl rfl⟩

/-- Injecting inner thoughts into a call whose arguments parse as an
object: the updated call re-serializes the object with the reserved key
set. -/
theorem add_inner_ok_of_obj (tc : ToolCall) (s k : String) (kvs : JsonObj)
    (h : json_loads tc.function.arguments = some (Json.obj kvs)) :
    add_inner_thoughts_to_tool_call tc s k
      = Except.ok { tc with function := { tc.function with
          arguments := json_dumps (Json.obj (kvs.setKey k (Json.str s))) } } := by
  unfold add_inner_thoughts_to_tool_call
  rw [h]

/-- The C3 counterexample instance: an assistant record whose single
tool call's arguments parse as a JSON object that already contains the
reserved key. -/
def msgC3cex : Message :=
  { role := "assistant", text := "t", created_at := utc0,
    tool_calls := some [⟨"id1", "function",
      ⟨"search", "\x7b\"inner_thoughts\":\"x\"\x7d"⟩⟩] }

/-- C3 counterexample: the tool call's arguments parse as a JSON object,
packing is enabled and there is exactly one call, yet the Google encoder
raises (`assert "inner_thoughts" not in function_args` fails), so no
output carrying the reserved key exists — the claim's Google clause
fails as stated. -/
theorem c3_google_collision_rejected :
    Message.to_google_ai_dict msgC3cex true = Except.error PyErr.assertionError
    ∧ json_loads ("\x7b\"inner_thoughts\":\"x\"\x7d")
        = some (Json.obj (JsonObj.cons ("inner_thoughts") (Json.str ("x")) JsonObj.nil)) :=
  ⟨rfl, rfl⟩

/-- C3 (amended): for an assistant record with exactly one tool call
whose arguments parse as a JSON object not already containing the
reserved key, and no participant name, packing behaves as claimed: the
OpenAI encoder's output call arguments, when parsed, bind the reserved
key to exactly the record's text and leave every other binding
unchanged, and the Google encoder's output function-call args are that
same updated object; neither encoder mutates the stored record, whose
fields all statements here read unchanged. -/
theorem c3_packing_law (m : Message) (tc : ToolCall) (kvs : JsonObj) (maxlen : Nat)
    (hrole : m.role = "assistant") (htc : m.tool_calls = some [tc])
    (hargs : json_loads tc.function.arguments = some (Json.obj kvs))
    (hfree : kvs.hasKey ("inner_thoughts") = false) (hname : m.name = none) :
    (∃ d : ToolCallDict,
      Message.to_openai_dict m maxlen true
        = Except.ok { role := m.role, content := none, name := m.name,
                      tool_calls := some [d] }
      ∧ json_loads d.function.arguments
          = some (Json.obj (kvs.setKey INNER_THOUGHTS_KWARG (Json.str m.text)))
      ∧ (kvs.setKey INNER_THOUGHTS_KWARG (Json.str m.text)).lookup INNER_THOUGHTS_KWARG
          = some (Json.str m.text)
      ∧ ∀ k2, k2 ≠ INNER_THOUGHTS_KWARG →
          (kvs.setKey INNER_THOUGHTS_KWARG (Json.str m.text)).lookup k2
            = kvs.lookup k2)
    ∧ Message.to_google_ai_dict m true
        = Except.ok { role := "model",
                      parts := [GooglePart.functionCall tc.function.name
                        (Json.obj (kvs.setKey INNER_THOUGHTS_KWARG
                          (Json.str m.text)))] } := by
  constructor
  · have hadd := add_inner_ok_of_obj tc m.text INNER_THOUGHTS_KWARG kvs hargs
    have hbase := to_openai_dict_assistant_calls m maxlen true [tc] hrole htc
    by_cases hml : maxlen ≠ 0
    · refine ⟨{ ToolCall.model_dump { tc with function := { tc.function with
            arguments := json_dumps (Json.obj (kvs.setKey INNER_THOUGHTS_KWARG
              (Json.str m.text))) } } with
          id := pySlice tc.id maxlen }, ?_, ?_, lookup_setKey_self kvs _ _,
        fun k2 hk2 => lookup_setKey_ne kvs _ k2 _ hk2⟩
      · rw [hbase]
        simp [mapExcept, hadd, Except.map, ToolCall.model_dump, hml]
      · exact json_loads_dumps _
    · refine ⟨ToolCall.model_dump { tc with function := { tc.function with
            arguments := json_dumps (Json.obj (kvs.setKey INNER_THOUGHTS_KWARG
              (Json.str m.text))) } }, ?_, ?_, lookup_setKey_self kvs _ _,
        fun k2 hk2 => lookup_setKey_ne kvs _ k2 _ hk2⟩
      · rw [hbase]
        simp [mapExcept, hadd, Except.map, ToolCall.model_dump, hml]
      · exact json_loads_dumps _
  · rw [to_google_ai_dict_assistant m true hrole hname, htc]
    simp [mapExcept, hargs, hfree]

/-- The C3 witness tool call and its parsed arguments. -/
def tcC3w : ToolCall := ⟨"call-1", "function", ⟨"search", "\x7b\"q\":\"cats\"\x7d"⟩⟩

/-- The parsed argument object of `tcC3w`. -/
def kvsC3w : JsonObj := JsonObj.cons ("q") (Json.str ("cats")) JsonObj.nil

/-- The C3 witness record. -/
def msgC3w : Message :=
  { role := "assistant", text := "searching", created_at := utc0,
    tool_calls := some [tcC3w] }

/-- Witness for the amended C3 theorem at a concrete input. -/
theorem c3_packing_law_witness :
    json_loads tcC3w.function.arguments = some (Json.obj kvsC3w)
    ∧ kvsC3w.hasKey ("inner_thoughts") = false
    ∧ Message.to_google_ai_dict msgC3w true
        = Except.ok { role := "model",
                      parts := [GooglePart.functionCall ("search")
                        (Json.obj (kvsC3w.setKey INNER_THOUGHTS_KWARG
                          (Json.str ("searching"))))] } :=
  ⟨rfl, rfl, (c3_packing_law msgC3w tcC3w kvsC3w 29 rfl rfl rfl rfl rfl).2⟩

/-- The C4 counterexample record: the message the adapter produces from
payload `{role:"tool", content:"ok", tool_call_id:"0123456789"}`. -/
def msgC4cex : Message :=
  { role := "tool", text := "ok", created_at := utc0,
    tool_call_id := some ("0123456789") }

/-- C4 counterexample: a modern tool payload whose 10-character
correlation id ingests cleanly, but re-encoding truncates the id to the
encoder's `maxToolIdLength` (8 here), so `tool_call_id` is not
reproduced exactly. -/
theorem c4_truncation_breaks_roundtrip :
    dict_to_message none none
        { role := "tool", content := some ("ok"),
          tool_call_id := some (some ("0123456789")) } none true none utc0
      = Except.ok msgC4cex
    ∧ Message.to_openai_dict msgC4cex 8 true
        = Except.ok { role := "tool", content := some (OAIContent.str ("ok")),
                      tool_call_id := some ("01234567") }
    ∧ ("01234567" : String) ≠ "0123456789" :=
  ⟨rfl, rfl, by decide⟩

/-- C4 (amended): ingesting a modern OpenAI payload with role in
{system, user, tool} and re-encoding reproduces `content` and `role`
exactly, and reproduces `tool_call_id` exactly whenever the id's length
is within `maxToolIdLength` (or truncation is disabled); longer ids come
back truncated to the encoder limit. -/
theorem c4_roundtrip (u a : Option String) (p : OpenAIPayload) (mo : Option String)
    (allow : Bool) (ca : Option PyDateTime) (now : PyDateTime) (m : Message)
    (maxlen : Nat) (b : Bool)
    (hrole : p.role = "system" ∨ p.role = "user" ∨ p.role = "tool")
    (h : dict_to_message u a p mo allow ca now = Except.ok m) :
    ∃ out, Message.to_openai_dict m maxlen b = Except.ok out
      ∧ out.role = p.role
      ∧ (∃ t, p.content = some t ∧ out.content = some (OAIContent.str t))
      ∧ (p.role ≠ "tool" → out.tool_call_id = none)
      ∧ (p.role = "tool" → ∃ cid, p.tool_call_id = some (some cid)
          ∧ out.tool_call_id = some (if maxlen ≠ 0 then pySlice cid maxlen else cid)
          ∧ (cid.length ≤ maxlen ∨ maxlen = 0 → out.tool_call_id = some cid)) := by
  have hrfn : p.role ≠ "function" := by
    rcases hrole with hr | hr | hr <;> simp [hr]
  have horig := h
  unfold dict_to_message at h
  rw [if_neg hrfn] at h
  rcases hfc : p.function_call with _ | fc
  · rw [hfc] at h
    by_cases hrt : p.role = "tool"
    · rcases htci : p.tool_call_id with _ | otc
      · simp [hrt, htci] at h
      · rcases otc with _ | cid
        · simp [hrt, htci] at h
        · rcases htcs : p.tool_calls with _ | l
          · simp [hrt, htci, htcs] at h
            obtain ⟨hr, -, -, -, -, -, -, hid, hct, -, -⟩ := mkMessage_ok_fields h
            refine ⟨_, to_openai_dict_tool m maxlen b cid hr hid, ?_, ?_, ?_, ?_⟩
            · show m.role = p.role
              rw [hr, hrt]
            · exact ⟨m.text, hct, rfl⟩
            · intro hne
              exact absurd hrt hne
            · intro _
              refine ⟨cid, rfl, rfl, ?_⟩
              rintro (hle | h0)
              · by_cases hml : maxlen ≠ 0
                · show some (if maxlen ≠ 0 then pySlice cid maxlen else cid) = some cid
                  rw [if_pos hml, pySlice_of_le cid maxlen hle]
                · show some (if maxlen ≠ 0 then pySlice cid maxlen else cid) = some cid
                  rw [if_neg hml]
              · show some (if maxlen ≠ 0 then pySlice cid maxlen else cid) = some cid
                rw [if_neg (by omega)]
          · simp [hrt, htci, htcs] at h
    · have hrsu : p.role = "system" ∨ p.role = "user" := by
        rcases hrole with hr | hr | hr
        · exact Or.inl hr
        · exact Or.inr hr
        · exact absurd hr hrt
      have hna : p.role ≠ "assistant" := by
        rcases hrsu with hr | hr <;> simp [hr]
      have main : ∀ (hgot : p.tool_calls = none),
          (match p.tool_call_id with
            | some (some _) => False
            | _ => True) →
          dict_to_message u a p mo allow ca now = Except.ok m →
          ∃ out, Message.to_openai_dict m maxlen b = Except.ok out
            ∧ out.role = p.role
            ∧ (∃ t, p.content = some t ∧ out.content = some (OAIContent.str t))
            ∧ (p.role ≠ "tool" → out.tool_call_id = none)
            ∧ (p.role = "tool" → ∃ cid, p.tool_call_id = some (some cid)
                ∧ out.tool_call_id = some (if maxlen ≠ 0 then pySlice cid maxlen
                    else cid)
                ∧ (cid.length ≤ maxlen ∨ maxlen = 0 →
                    out.tool_call_id = some cid)) := by
        intro htcs hsane h2
        unfold dict_to_message at h2
        rw [if_neg hrfn, hfc] at h2
        rcases htci : p.tool_call_id with _ | otc
        · simp [hrt, htci, htcs] at h2
          obtain ⟨hr, -, -, -, -, -, htcm, hid, hct, -, hmm⟩ := mkMessage_ok_fields h2
          rcases hrsu with hr2 | hr2
          · refine ⟨_, to_openai_dict_system m maxlen b (by rw [hr, hr2]), ?_, ?_, ?_, ?_⟩
            · exact hr
            · exact ⟨m.text, hct, rfl⟩
            · intro _
              rfl
            · intro habs
              exact absurd (hr2.symm.trans habs) (by decide)
          · have hu := to_openai_dict_user m maxlen b (by rw [hr, hr2])
            rw [hmm] at hu
            refine ⟨_, hu, ?_, ?_, ?_, ?_⟩
            · exact hr
            · exact ⟨m.text, hct, rfl⟩
            · intro _
              rfl
            · intro habs
              exact absurd (hr2.symm.trans habs) (by decide)
        · rcases otc with _ | cid
          · simp [hrt, htci, htcs] at h2
            obtain ⟨hr, -, -, -, -, -, htcm, hid, hct, -, hmm⟩ := mkMessage_ok_fields h2
            rcases hrsu with hr2 | hr2
            · refine ⟨_, to_openai_dict_system m maxlen b (by rw [hr, hr2]), ?_, ?_, ?_, ?_⟩
              · exact hr
              · exact ⟨m.text, hct, rfl⟩
              · intro _
                rfl
              · intro habs
                exact absurd (hr2.symm.trans habs) (by decide)
            · have hu := to_openai_dict_user m maxlen b (by rw [hr, hr2])
              rw [hmm] at hu
              refine ⟨_, hu, ?_, ?_, ?_, ?_⟩
              · exact hr
              · exact ⟨m.text, hct, rfl⟩
              · intro _
                rfl
              · intro habs
                exact absurd (hr2.symm.trans habs) (by decide)
          · rw [htci] at hsane
            simp at hsane
      rcases htci : p.tool_call_id with _ | otc
      · rcases htcs : p.tool_calls with _ | l
        · obtain ⟨out, h1, h2, h3, h4, -⟩ := main htcs (by rw [htci]; trivial) horig
          exact ⟨out, h1, h2, h3, h4, fun habs => absurd habs hrt⟩
        · simp [hrt, htci, htcs, hna] at h
      · rcases otc with _ | cid
        · rcases htcs : p.tool_calls with _ | l
          · obtain ⟨out, h1, h2, h3, h4, -⟩ := main htcs (by rw [htci]; trivial) horig
            exact ⟨out, h1, h2, h3, h4, fun habs => absurd habs hrt⟩
          · simp [hrt, htci, htcs, hna] at h
        · simp [hrt, htci] at h
  · rw [hfc] at h
    cases allow with
    | false => simp at h
    | true =>
      have hna : p.role ≠ "assistant" := by
        rcases hrole with hr | hr | hr <;> simp [hr]
      simp [hna] at h

/-- The C4 witness payload and its ingested record. -/
def payC4w : OpenAIPayload := { role := "system", content := some ("sys") }

/-- The record the adapter produces from `payC4w`. -/
def msgC4w : Message := { role := "system", text := "sys", created_at := utc0 }

/-- Witness for the amended C4 theorem at a concrete input. -/
theorem c4_roundtrip_witness :
    dict_to_message none none payC4w none true none utc0 = Except.ok msgC4w
    ∧ ∃ out, Message.to_openai_dict msgC4w 29 true = Except.ok out
        ∧ out.role = payC4w.role :=
  ⟨rfl, by
    obtain ⟨out, h1, h2, -⟩ :=
      c4_roundtrip none none payC4w none true none utc0 msgC4w 29 true (Or.inl rfl) rfl
    exact ⟨out, h1, h2⟩⟩
